import Mathlib

set_option maxHeartbeats 1000000

/-!
Verification development for the content-resolver feedback pipeline
(`feedback_pipeline.py`).  Python dictionaries are modeled as association
lists (`alookup`), Python sets as duplicate-free lists (`sadd`, `sunion`),
and fallible dictionary indexing as `Except`-valued functions.  Machine
strings are Lean `String`s, except in the composite-id decomposition
development where Python strings are modeled as lists of characters so
that splitting and joining can be reasoned about elementwise.

The file is organized as definitions first, then theorems.
-/

/-! # Definitions -/

/-! ## Basic container helpers (Python set / dict model) -/

/-- Python `set.add`: insert an element into a set modeled as a
duplicate-free list. -/
def sadd {α : Type} [DecidableEq α] (x : α) (l : List α) : List α :=
  if x ∈ l then l else x :: l

/-- Python `set.update`: union a batch of new elements into a set modeled as
a duplicate-free list. -/
def sunion {α : Type} [DecidableEq α] (l : List α) (new : List α) : List α :=
  new.foldl (fun acc x => sadd x acc) l

/-- Python `dict` lookup (`d[k]` guarded by `k in d`), on a dictionary
modeled as an association list. -/
def alookup {α β : Type} [DecidableEq α] : List (α × β) → α → Option β
  | [], _ => none
  | (k, v) :: rest, k' => if k' = k then some v else alookup rest k'

/-- Decidable equality of `Except` results, used to evaluate the embedded
fallible functions on concrete inputs. -/
instance {ε α : Type} [DecidableEq ε] [DecidableEq α] :
    DecidableEq (Except ε α)
  | .error e₁, .error e₂ =>
    if h : e₁ = e₂ then .isTrue (by rw [h])
    else .isFalse (fun hh => h (Except.error.inj hh))
  | .error _, .ok _ => .isFalse (fun hh => Except.noConfusion hh)
  | .ok _, .error _ => .isFalse (fun hh => Except.noConfusion hh)
  | .ok v₁, .ok v₂ =>
    if h : v₁ = v₂ then .isTrue (by rw [h])
    else .isFalse (fun hh => h (Except.ok.inj hh))

/-- Python truthiness of a str-or-None value: `None` and the empty string
are falsy, every other string is truthy. -/
def pyTruthyStr : Option String → Bool
  | none => false
  | some s => !(s == "")

/-- Lexicographic comparison of character lists by code point, the order
Python uses to compare strings; written to be executable by the kernel. -/
def charListLe : List Char → List Char → Bool
  | [], _ => true
  | _ :: _, [] => false
  | c :: cs, d :: ds => if c = d then charListLe cs ds else decide (c < d)

/-- Python string comparison `a <= b` (lexicographic on code points). -/
def pyStrLe (a b : String) : Bool :=
  charListLe a.data b.data

/-- Python `sorted` on a list of strings (insertion sort is a stable
comparison sort, like Python's). -/
def pySorted (l : List String) : List String :=
  List.insertionSort (fun a b => pyStrLe a b = true) l

/-! ## Workload instances (C1)

The analysis-result record constructed per workload instance.  The
presentation-only fields of the Python dictionary (`errors`,
`enabled_modules`) are not consulted by any function embedded here and are
omitted.  `pkg_relations` keeps, per package id, the `required_by` id set
read by `_pkg_relations_ids_to_names`. -/

structure Workload where
  workload_conf_id : String
  env_conf_id : String
  repo_id : String
  arch : String
  pkg_env_ids : List String
  pkg_added_ids : List String
  pkg_placeholder_ids : List String
  pkg_relations : List (String × List String)
  succeeded : Bool
  env_succeeded : Bool
deriving DecidableEq

/-- Embeds `_return_failed_workload_env_err` (feedback_pipeline.py:1264):
the workload record built when the underlying environment failed. -/
def return_failed_workload_env_err
    (workload_conf_id env_conf_id repo_id arch : String) : Workload :=
  { workload_conf_id := workload_conf_id
    env_conf_id := env_conf_id
    repo_id := repo_id
    arch := arch
    pkg_env_ids := []
    pkg_added_ids := []
    pkg_placeholder_ids := []
    pkg_relations := []
    succeeded := false
    env_succeeded := false }

/-- Embeds the per-instance dispatch of `_analyze_workloads`
(feedback_pipeline.py:1640-1661): when the environment instance succeeded
the workload record comes from the external DNF-driven `_analyze_workload`
(out of scope, passed in as `analyzed`); otherwise the failed record is
built by `return_failed_workload_env_err`. -/
def analyze_workloads_dispatch (env_succeeded : Bool) (analyzed : Workload)
    (workload_conf_id env_conf_id repo_id arch : String) : Workload :=
  if env_succeeded then analyzed
  else return_failed_workload_env_err workload_conf_id env_conf_id repo_id arch

/-! ## Composite id decomposition and recomposition (C5)

For this development Python strings are modeled as lists of characters, so
that `str.split(":")` becomes `List.splitOn ':'` and string formatting
becomes list concatenation. -/

/-- Embeds `Query.workload_id_string` (feedback_pipeline.py:2294) over
character lists. -/
def workload_id_chars (workload_conf_id env_conf_id repo_id arch : List Char) :
    List Char :=
  workload_conf_id ++ ':' :: (env_conf_id ++ ':' :: (repo_id ++ ':' :: arch))

/-- Embeds `Query.env_id_string` (feedback_pipeline.py:2303) over character
lists. -/
def env_id_chars (env_conf_id repo_id arch : List Char) : List Char :=
  env_conf_id ++ ':' :: (repo_id ++ ':' :: arch)

/-- Embeds the decomposition `id.split(":")` used by `Query.workloads_id`
(feedback_pipeline.py:1836) over character lists. -/
def id_components (id : List Char) : List (List Char) :=
  id.splitOn ':'

/-! ## Query enumeration (C4, C6)

`Query.workloads` and `Query.envs` in enumeration mode (`list_all=True`).
The configuration and result stores enter only through their key sets. -/

structure QueryCtx where
  workload_conf_ids : List String
  env_conf_ids : List String
  repo_ids : List String
  allowed_arches : List String
  workload_ids : List String
  env_ids : List String
deriving DecidableEq

/-- Embeds `Query.workload_id_string` (feedback_pipeline.py:2294). -/
def workload_id_string (workload_conf_id env_conf_id repo_id arch : String) :
    String :=
  workload_conf_id ++ ":" ++ env_conf_id ++ ":" ++ repo_id ++ ":" ++ arch

/-- Embeds `Query.env_id_string` (feedback_pipeline.py:2303). -/
def env_id_string (env_conf_id repo_id arch : String) : String :=
  env_conf_id ++ ":" ++ repo_id ++ ":" ++ arch

/-- The candidate values considered for one dimension: Python
`if workload_conf_id: ... [workload_conf_id] ... else: <all keys>`
(feedback_pipeline.py:1777-1798); note Python truthiness makes an empty
string behave like `None`. -/
def considered (filt : Option String) (allIds : List String) : List String :=
  match filt with
  | none => allIds
  | some x => if x = "" then allIds else [x]

/-- The value accumulated per match in `Query.workloads`
(feedback_pipeline.py:1817-1827): one dimension under a projection,
otherwise the composite workload id. -/
def workloads_dim_value (output_change : Option String)
    (workload_conf_id env_conf_id repo_id arch : String) : String :=
  if output_change = some "workload_conf_ids" then workload_conf_id
  else if output_change = some "env_conf_ids" then env_conf_id
  else if output_change = some "repo_ids" then repo_id
  else if output_change = some "arches" then arch
  else workload_id_string workload_conf_id env_conf_id repo_id arch

/-- The value accumulated per match in `Query.envs`
(feedback_pipeline.py:1901-1909). -/
def envs_dim_value (output_change : Option String)
    (env_conf_id repo_id arch : String) : String :=
  if output_change = some "env_conf_ids" then env_conf_id
  else if output_change = some "repo_ids" then repo_id
  else if output_change = some "arches" then arch
  else env_id_string env_conf_id repo_id arch

/-- The `matching_ids` set built by the nested loops of `Query.workloads`
(feedback_pipeline.py:1774-1827). -/
def workloads_matching (ctx : QueryCtx)
    (workload_conf_id env_conf_id repo_id arch : Option String)
    (output_change : Option String) : List String :=
  let wcis := considered workload_conf_id ctx.workload_conf_ids
  let ecis := considered env_conf_id ctx.env_conf_ids
  let ris := considered repo_id ctx.repo_ids
  let arches := considered arch ctx.allowed_arches
  wcis.foldl (fun acc w =>
    ecis.foldl (fun acc e =>
      ris.foldl (fun acc r =>
        arches.foldl (fun acc a =>
          if workload_id_string w e r a ∈ ctx.workload_ids then
            sadd (workloads_dim_value output_change w e r a) acc
          else acc) acc) acc) acc) []

/-- The `matching_ids` set built by the nested loops of `Query.envs`
(feedback_pipeline.py:1866-1909). -/
def envs_matching (ctx : QueryCtx)
    (env_conf_id repo_id arch : Option String)
    (output_change : Option String) : List String :=
  let ecis := considered env_conf_id ctx.env_conf_ids
  let ris := considered repo_id ctx.repo_ids
  let arches := considered arch ctx.allowed_arches
  ecis.foldl (fun acc e =>
    ris.foldl (fun acc r =>
      arches.foldl (fun acc a =>
        if env_id_string e r a ∈ ctx.env_ids then
          sadd (envs_dim_value output_change e r a) acc
        else acc) acc) acc) []

/-- Embeds `Query.workloads` (feedback_pipeline.py:1763-1831) in
enumeration mode (`list_all=True`): projection-key validation, the nested
dimension loops, and `sorted(list(matching_ids))`. -/
def workloads (ctx : QueryCtx)
    (workload_conf_id env_conf_id repo_id arch : Option String)
    (output_change : Option String) : Except String (List String) :=
  if pyTruthyStr output_change then
    if output_change.getD "" ∈
        ["workload_conf_ids", "env_conf_ids", "repo_ids", "arches"] then
      .ok (pySorted (workloads_matching ctx workload_conf_id
        env_conf_id repo_id arch output_change))
    else .error "ValueError: output_change"
  else
    .ok (pySorted (workloads_matching ctx workload_conf_id
      env_conf_id repo_id arch output_change))

/-- Embeds `Query.envs` (feedback_pipeline.py:1855-1914) in enumeration
mode (`list_all=True`). -/
def envs (ctx : QueryCtx) (env_conf_id repo_id arch : Option String)
    (output_change : Option String) : Except String (List String) :=
  if pyTruthyStr output_change then
    if output_change.getD "" ∈ ["env_conf_ids", "repo_ids", "arches"] then
      .ok (pySorted (envs_matching ctx env_conf_id repo_id arch output_change))
    else .error "ValueError: output_change"
  else
    .ok (pySorted (envs_matching ctx env_conf_id repo_id arch output_change))

/-- Python `id.split(":")` on a machine string, computed on the underlying
character list (`":"` is a single-character separator, so character-level
splitting coincides with Python `str.split`). -/
def split_colon (id : String) : List String :=
  (id.data.splitOn ':').map List.asString

/-- Embeds `Query.workloads_id` (feedback_pipeline.py:1833-1853): split the
combined id, dispatch on the part count, otherwise raise. -/
def workloads_id (ctx : QueryCtx) (id : String)
    (output_change : Option String) : Except String (List String) :=
  let parts := split_colon id
  if parts.length = 3 then
    workloads ctx none (some (parts.getD 0 "")) (some (parts.getD 1 ""))
      (some (parts.getD 2 "")) output_change
  else if parts.length = 4 then
    workloads ctx (some (parts.getD 0 "")) (some (parts.getD 1 ""))
      (some (parts.getD 2 "")) (some (parts.getD 3 "")) output_change
  else .error "That seems to be an invalid ID!"

/-- Embeds `Query.envs_id` (feedback_pipeline.py:1916-1936). -/
def envs_id (ctx : QueryCtx) (id : String)
    (output_change : Option String) : Except String (List String) :=
  let parts := split_colon id
  if parts.length = 3 then
    envs ctx (some (parts.getD 0 "")) (some (parts.getD 1 ""))
      (some (parts.getD 2 "")) output_change
  else if parts.length = 4 then
    envs ctx (some (parts.getD 1 "")) (some (parts.getD 2 ""))
      (some (parts.getD 3 "")) output_change
  else .error "That seems to be an invalid ID!"

/-! ## Ownership engine: component maintainer resolution (C2, C9)

`OwnershipEngine._process_layer_component_maintainers`
(feedback_pipeline.py:4937-4992).  A level's maintainer data enters the
pass only through its `pkg_count` field, so a level is represented here by
its maintainer → pkg_count map; the level-name keys keep the map order of
`srpm_entries[..]["ownership"]`. -/

abbrev LevelScores := List (String × Nat)

/-- One entry of `self.component_maintainers`
(feedback_pipeline.py:5126-5131). -/
structure CompMaint where
  all : List (String × Nat)
  top_multiple : List String
  top : Option String
deriving DecidableEq

/-- Embeds the level scan (feedback_pipeline.py:4947-4966): collect the
non-skipped maintainer scores of the first level name (in map order) that
has a non-skipped maintainer. -/
def collect_maintainers (skipped : List String) :
    List (String × LevelScores) → List (String × Nat)
  | [] => []
  | (_, level_data) :: rest =>
    let ms := level_data.filter (fun p => decide (p.1 ∉ skipped))
    if ms.isEmpty then collect_maintainers skipped rest else ms

/-- One step of the score grouping (feedback_pipeline.py:4969-4973):
ensure a set exists for score `s`, then add maintainer `m` to it. -/
def add_score (acc : List (Nat × List String)) (m : String) (s : Nat) :
    List (Nat × List String) :=
  let acc' := match alookup acc s with
    | none => acc ++ [(s, [])]
    | some _ => acc
  acc'.map (fun p => if p.1 = s then (p.1, sadd m p.2) else p)

/-- `maintainer_scores` (feedback_pipeline.py:4969-4973): group maintainers
by score. -/
def maintainer_scores (maintainers : List (String × Nat)) :
    List (Nat × List String) :=
  maintainers.foldl (fun acc p => add_score acc p.1 p.2) []

/-- The loop over scores sorted descending (feedback_pipeline.py:4976-4988):
at the first score whose maintainer set is a singleton that maintainer
becomes `top`; several tied maintainers become `top_multiple` with no
`top`. -/
def pick_top (groups : List (Nat × List String)) :
    List Nat → Option String × List String
  | [] => (none, [])
  | s :: rest =>
    let ms := (alookup groups s).getD []
    if 1 < ms.length then (none, ms)
    else if ms.length = 1 then (ms.head?, ms)
    else pick_top groups rest

/-- Resolution of one component from its collected maintainer → score map
(feedback_pipeline.py:4968-4988): group by score, walk scores in
descending sorted order.  Returns `(top, top_multiple)`. -/
def process_component (maintainers : List (String × Nat)) :
    Option String × List String :=
  pick_top (maintainer_scores maintainers)
    (List.insertionSort (fun a b : Nat => a ≥ b)
      ((maintainer_scores maintainers).map Prod.fst))

/-- Embeds the full pass `_process_layer_component_maintainers`
(feedback_pipeline.py:4937-4992) over the component table.  `srpms` is
`self.srpm_entries` reduced to per-level-name maintainer scores, `cm` is
`self.component_maintainers`.  A component whose stored `top` is truthy
(Python `if self.component_maintainers[component_name]["top"]:`) is
skipped; otherwise `all`, `top_multiple` and `top` are recomputed and
reassigned. -/
def process_layer_component_maintainers (skipped : List String) :
    List (String × List (String × LevelScores)) →
      List (String × CompMaint) → Except String (List (String × CompMaint))
  | [], cm => .ok cm
  | (comp, odata) :: rest, cm =>
    match alookup cm comp with
    | none => .error "KeyError: component_maintainers"
    | some entry =>
      if pyTruthyStr entry.top then
        process_layer_component_maintainers skipped rest cm
      else
        let maintainers := collect_maintainers skipped odata
        let tt := process_component maintainers
        process_layer_component_maintainers skipped rest
          (cm.map (fun p => if p.1 = comp then
            (p.1, { all := maintainers, top_multiple := tt.2, top := tt.1 })
            else p))

/-! ## Workload package aggregation (C3, C10)

`Query.workload_pkgs` (feedback_pipeline.py:1938-2095): merge, over all
matching workload instances, every package by id into one record per
(repo, arch, package id), tagging provenance sets `q_in`,
`q_required_in`, `q_env_in`. -/

/-- A package record of `data["pkgs"][repo_id][arch]`, the fields read by
`Query.workload_pkgs` (feedback_pipeline.py:1990-1997). -/
structure Pkg where
  name : String
  evr : String
  arch : String
  installsize : Nat
  description : String
  summary : String
  source_name : String
deriving DecidableEq

/-- A package placeholder definition of a workload configuration, the
fields read at feedback_pipeline.py:2048-2055. -/
structure Placeholder where
  name : String
  description : String
  srpm : String
deriving DecidableEq

/-- A workload configuration, the fields read by the embedded functions:
`maintainer`, `packages`, `arch_packages`, `package_placeholders`. -/
structure WorkloadConf where
  maintainer : String
  packages : List String
  arch_packages : List (String × List String)
  package_placeholders : List (String × Placeholder)
deriving DecidableEq

/-- The stores read by `Query.workload_pkgs`: `data["pkgs"]` (repo → arch →
package id → record), `data["workloads"]` and `configs["workloads"]`. -/
structure PkgCtx where
  pkgs : List (String × List (String × List (String × Pkg)))
  workloads_data : List (String × Workload)
  workload_confs : List (String × WorkloadConf)
deriving DecidableEq

/-- Embeds `pkg_id_to_name` (feedback_pipeline.py:89):
`pkg_id.rsplit("-", 2)[0]`, i.e. everything before the second dash from
the right (computed on the character list so that it evaluates). -/
def pkg_id_to_name (pkg_id : String) : String :=
  let parts := pkg_id.data.splitOn '-'
  (List.intercalate ['-'] (parts.take (max 1 (parts.length - 2)))).asString

/-- The per-package record built by `Query.workload_pkgs`
(feedback_pipeline.py:1987-2064); its fields are exactly the keys assigned
there. -/
structure PkgQ where
  id : String
  name : String
  evr : String
  arch : String
  installsize : Nat
  description : String
  summary : String
  source_name : String
  q_arch : String
  q_in : List String
  q_required_in : List String
  q_env_in : List String
deriving DecidableEq

/-- Reading a string-valued key off a `PkgQ` record the way a Python dict
read `pkg[key]` would: only the keys assigned at
feedback_pipeline.py:1987-2064 are present; in particular `sourcerpm` is
never assigned, so reading it yields nothing (a `KeyError`). -/
def pkgq_str_field (p : PkgQ) : String → Option String
  | "id" => some p.id
  | "name" => some p.name
  | "evr" => some p.evr
  | "arch" => some p.arch
  | "description" => some p.description
  | "summary" => some p.summary
  | "source_name" => some p.source_name
  | "q_arch" => some p.q_arch
  | _ => none

/-- The accumulator `pkgs[repo_id][arch][pkg_id]` of `workload_pkgs`,
flattened to one association list keyed by (repo, arch, package id). -/
abbrev PkgsAcc := List ((String × String × String) × PkgQ)

/-- The record initialization at feedback_pipeline.py:1989-2001 /
2020-2032. -/
def init_pkgq (pkg_id : String) (pkg : Pkg) (workload_arch : String) : PkgQ :=
  { id := pkg_id
    name := pkg.name
    evr := pkg.evr
    arch := pkg.arch
    installsize := pkg.installsize
    description := pkg.description
    summary := pkg.summary
    source_name := pkg.source_name
    q_arch := workload_arch
    q_in := []
    q_required_in := []
    q_env_in := [] }

/-- The placeholder record initialization at
feedback_pipeline.py:2046-2059. -/
def init_pkgq_placeholder (placeholder_id : String) (ph : Placeholder)
    (workload_arch : String) : PkgQ :=
  { id := placeholder_id
    name := ph.name
    evr := "000-placeholder"
    arch := "placeholder"
    installsize := 0
    description := ph.description
    summary := ph.description
    source_name := ph.srpm
    q_arch := workload_arch
    q_in := []
    q_required_in := []
    q_env_in := [] }

/-- `if pkg_id not in pkgs[repo][arch]: <initialize>`
(feedback_pipeline.py:1988 etc.). -/
def ensure_rec (k : String × String × String) (init : PkgQ) (acc : PkgsAcc) :
    PkgsAcc :=
  match alookup acc k with
  | some _ => acc
  | none => acc ++ [(k, init)]

/-- In-place mutation of one record of the accumulator. -/
def modify_rec (k : String × String × String) (f : PkgQ → PkgQ)
    (acc : PkgsAcc) : PkgsAcc :=
  acc.map (fun p => if p.1 = k then (p.1, f p.2) else p)

/-- Nested lookup into `data["pkgs"][repo_id][arch][pkg_id]`. -/
def lookup_pkg (store : List (String × List (String × List (String × Pkg))))
    (repo_id arch pkg_id : String) : Option Pkg :=
  match alookup store repo_id with
  | none => none
  | some by_arch =>
    match alookup by_arch arch with
    | none => none
    | some by_id => alookup by_id pkg_id

/-- One environment package of one workload
(feedback_pipeline.py:1983-2011): tag `q_in` and `q_env_in`, and
`q_required_in` when the package name is in the configuration's package
list or its per-arch package list.  Errors mirror the Python `KeyError`s:
a package id missing from the store, a missing per-arch package list, or
an accumulator bucket that was never initialized (the workload's repo or
arch is outside the projected `repo_ids`/`arches`). -/
def workload_pkgs_env_step
    (store : List (String × List (String × List (String × Pkg))))
    (repo_ids arches : List String) (w : Workload) (workload_id : String)
    (conf : WorkloadConf) (pkg_id : String) (acc : PkgsAcc) :
    Except String PkgsAcc :=
  match lookup_pkg store w.repo_id w.arch pkg_id with
  | none => .error "KeyError: pkgs"
  | some pkg =>
    if w.repo_id ∈ repo_ids ∧ w.arch ∈ arches then
      match alookup conf.arch_packages w.arch with
      | none => .error "KeyError: arch_packages"
      | some arch_pkgs =>
        .ok (modify_rec (w.repo_id, w.arch, pkg_id) (fun r =>
          { r with
            q_in := sadd workload_id r.q_in
            q_env_in := sadd workload_id r.q_env_in
            q_required_in :=
              if pkg.name ∈ conf.packages ∨ pkg.name ∈ arch_pkgs
              then sadd workload_id r.q_required_in
              else r.q_required_in })
          (ensure_rec (w.repo_id, w.arch, pkg_id)
            (init_pkgq pkg_id pkg w.arch) acc))
    else .error "KeyError: pkgs bucket"

/-- One added package of one workload (feedback_pipeline.py:2013-2041):
like an environment package but without the `q_env_in` tag. -/
def workload_pkgs_added_step
    (store : List (String × List (String × List (String × Pkg))))
    (repo_ids arches : List String) (w : Workload) (workload_id : String)
    (conf : WorkloadConf) (pkg_id : String) (acc : PkgsAcc) :
    Except String PkgsAcc :=
  match lookup_pkg store w.repo_id w.arch pkg_id with
  | none => .error "KeyError: pkgs"
  | some pkg =>
    if w.repo_id ∈ repo_ids ∧ w.arch ∈ arches then
      match alookup conf.arch_packages w.arch with
      | none => .error "KeyError: arch_packages"
      | some arch_pkgs =>
        .ok (modify_rec (w.repo_id, w.arch, pkg_id) (fun r =>
          { r with
            q_in := sadd workload_id r.q_in
            q_required_in :=
              if pkg.name ∈ conf.packages ∨ pkg.name ∈ arch_pkgs
              then sadd workload_id r.q_required_in
              else r.q_required_in })
          (ensure_rec (w.repo_id, w.arch, pkg_id)
            (init_pkgq pkg_id pkg w.arch) acc))
    else .error "KeyError: pkgs bucket"

/-- One placeholder of one workload (feedback_pipeline.py:2043-2064):
always tagged `q_in` and `q_required_in`. -/
def workload_pkgs_placeholder_step (repo_ids arches : List String)
    (w : Workload) (workload_id : String) (conf : WorkloadConf)
    (placeholder_id : String) (acc : PkgsAcc) : Except String PkgsAcc :=
  match alookup conf.package_placeholders (pkg_id_to_name placeholder_id) with
  | none => .error "KeyError: package_placeholders"
  | some ph =>
    if w.repo_id ∈ repo_ids ∧ w.arch ∈ arches then
      .ok (modify_rec (w.repo_id, w.arch, placeholder_id) (fun r =>
        { r with
          q_in := sadd workload_id r.q_in
          q_required_in := sadd workload_id r.q_required_in })
        (ensure_rec (w.repo_id, w.arch, placeholder_id)
          (init_pkgq_placeholder placeholder_id ph w.arch) acc))
    else .error "KeyError: pkgs bucket"

/-- The loop over `workload["pkg_env_ids"]` (feedback_pipeline.py:1983). -/
def workload_pkgs_env_loop
    (store : List (String × List (String × List (String × Pkg))))
    (repo_ids arches : List String) (w : Workload) (workload_id : String)
    (conf : WorkloadConf) : List String → PkgsAcc → Except String PkgsAcc
  | [], acc => .ok acc
  | pkg_id :: rest, acc =>
    match workload_pkgs_env_step store repo_ids arches w workload_id conf
        pkg_id acc with
    | .error e => .error e
    | .ok acc1 =>
      workload_pkgs_env_loop store repo_ids arches w workload_id conf rest acc1

/-- The loop over `workload["pkg_added_ids"]` (feedback_pipeline.py:2014). -/
def workload_pkgs_added_loop
    (store : List (String × List (String × List (String × Pkg))))
    (repo_ids arches : List String) (w : Workload) (workload_id : String)
    (conf : WorkloadConf) : List String → PkgsAcc → Except String PkgsAcc
  | [], acc => .ok acc
  | pkg_id :: rest, acc =>
    match workload_pkgs_added_step store repo_ids arches w workload_id conf
        pkg_id acc with
    | .error e => .error e
    | .ok acc1 =>
      workload_pkgs_added_loop store repo_ids arches w workload_id conf rest acc1

/-- The loop over `workload["pkg_placeholder_ids"]`
(feedback_pipeline.py:2044). -/
def workload_pkgs_placeholder_loop (repo_ids arches : List String)
    (w : Workload) (workload_id : String) (conf : WorkloadConf) :
    List String → PkgsAcc → Except String PkgsAcc
  | [], acc => .ok acc
  | placeholder_id :: rest, acc =>
    match workload_pkgs_placeholder_step repo_ids arches w workload_id conf
        placeholder_id acc with
    | .error e => .error e
    | .ok acc1 =>
      workload_pkgs_placeholder_loop repo_ids arches w workload_id conf rest acc1

/-- Processing of one matching workload id
(feedback_pipeline.py:1975-2064). -/
def workload_pkgs_one (ctx : PkgCtx) (repo_ids arches : List String)
    (workload_id : String) (acc : PkgsAcc) : Except String PkgsAcc :=
  match alookup ctx.workloads_data workload_id with
  | none => .error "KeyError: workloads"
  | some w =>
    match alookup ctx.workload_confs w.workload_conf_id with
    | none => .error "KeyError: workload_confs"
    | some conf =>
      match workload_pkgs_env_loop ctx.pkgs repo_ids arches w workload_id
          conf w.pkg_env_ids acc with
      | .error e => .error e
      | .ok acc1 =>
        match workload_pkgs_added_loop ctx.pkgs repo_ids arches w workload_id
            conf w.pkg_added_ids acc1 with
        | .error e => .error e
        | .ok acc2 =>
          workload_pkgs_placeholder_loop repo_ids arches w workload_id conf
            w.pkg_placeholder_ids acc2

/-- The aggregation over all matching workload ids
(feedback_pipeline.py:1975). -/
def workload_pkgs_acc (ctx : PkgCtx) (repo_ids arches : List String) :
    List String → PkgsAcc → Except String PkgsAcc
  | [], acc => .ok acc
  | workload_id :: rest, acc =>
    match workload_pkgs_one ctx repo_ids arches workload_id acc with
    | .error e => .error e
    | .ok acc1 => workload_pkgs_acc ctx repo_ids arches rest acc1

/-- The flattening loop over the accumulator buckets
(feedback_pipeline.py:2086-2090), in bucket order. -/
def flatten_pkgs (repo_ids arches : List String) (acc : PkgsAcc) :
    List PkgQ :=
  repo_ids.flatMap (fun r =>
    arches.flatMap (fun a =>
      (acc.filter (fun p => decide (p.1.1 = r) && decide (p.1.2.1 = a))).map
        Prod.snd))

/-- `sorted(final_pkg_list, key=lambda k: k["id"])`
(feedback_pipeline.py:2093). -/
def sort_pkgs_by_id (l : List PkgQ) : List PkgQ :=
  List.insertionSort (fun x y => pyStrLe x.id y.id = true) l

/-- The dict key each projection mode reads off a package record
(feedback_pipeline.py:2072-2079): note `source_nvr` reads `sourcerpm`. -/
def workload_pkgs_proj_key : String → String
  | "ids" => "id"
  | "binary_names" => "name"
  | "source_nvr" => "sourcerpm"
  | "source_names" => "source_name"
  | _ => ""

/-- The projection collection loop (feedback_pipeline.py:2067-2079):
reading a key absent from a record raises `KeyError`. -/
def collect_proj (output_change : String) :
    List PkgQ → Except String (List String)
  | [] => .ok []
  | p :: rest =>
    match pkgq_str_field p (workload_pkgs_proj_key output_change) with
    | none => .error "KeyError: sourcerpm"
    | some v =>
      match collect_proj output_change rest with
      | .error e => .error e
      | .ok vs => .ok (v :: vs)

/-- The two output shapes of `workload_pkgs`: a sorted name list under a
projection, else the flat record list sorted by id. -/
inductive WPkgsOut where
  | names (l : List String)
  | recs (l : List PkgQ)
deriving DecidableEq

/-- Embeds `Query.workload_pkgs` (feedback_pipeline.py:1938-2095).  The
three internal `Query.workloads` calls (`list_all`, `repo_ids` projection,
`arches` projection) are inlined as `pySorted (workloads_matching ...)`,
their `list_all=True` return values. -/
def workload_pkgs (qctx : QueryCtx) (ctx : PkgCtx)
    (workload_conf_id env_conf_id repo_id arch : Option String)
    (output_change : Option String) : Except String WPkgsOut :=
  let validate : Except String Unit :=
    if pyTruthyStr output_change then
      if output_change.getD "" ∈
          ["ids", "binary_names", "source_nvr", "source_names"]
      then .ok () else .error "ValueError: output_change"
    else .ok ()
  match validate with
  | .error e => .error e
  | .ok _ =>
    let workload_ids := pySorted (workloads_matching qctx workload_conf_id
      env_conf_id repo_id arch none)
    let repo_ids := pySorted (workloads_matching qctx workload_conf_id
      env_conf_id repo_id arch (some "repo_ids"))
    let arches := pySorted (workloads_matching qctx workload_conf_id
      env_conf_id repo_id arch (some "arches"))
    match workload_pkgs_acc ctx repo_ids arches workload_ids [] with
    | .error e => .error e
    | .ok acc =>
      if pyTruthyStr output_change then
        match collect_proj (output_change.getD "")
            (flatten_pkgs repo_ids arches acc) with
        | .error e => .error e
        | .ok names => .ok (.names (pySorted names.dedup))
      else .ok (.recs (sort_pkgs_by_id (flatten_pkgs repo_ids arches acc)))

/-- The record invariant of the `workload_pkgs` accumulator: every
record's `q_required_in` set is contained in its `q_in` set, and every
record's `id` equals the package-id component of its key. -/
def ReqSubInv (acc : PkgsAcc) : Prop :=
  ∀ p ∈ acc, (∀ x ∈ p.2.q_required_in, x ∈ p.2.q_in) ∧ p.2.id = p.1.2.2

/-- One accumulator extends another: every record stays present (by key),
keeps its `id`, and only grows its `q_required_in` set. -/
def AccExtends (acc acc' : PkgsAcc) : Prop :=
  ∀ k r, alookup acc k = some r → ∃ r', alookup acc' k = some r' ∧
    r.id = r'.id ∧ ∀ x ∈ r.q_required_in, x ∈ r'.q_required_in

/-! ## Ownership engine: layer-zero entries (C7, C8)

`OwnershipEngine._process_layer_zero_entries` (feedback_pipeline.py:5154-5287).
Part 1 assigns each of a workload's packages to a breadth-first level
(0-9) of the runtime required-by graph; part 2 rolls the per-package data
up to source components as maintainer → score entries. -/

/-- A `(higher_pkg_name, pkg_name)` tuple as collected in
`pkg_names_level` and `workload_requirements` — level 0 uses
`(None, pkg_name)` (feedback_pipeline.py:5207, 5233). -/
abbrev OPair := Option String × String

/-- Python `d[k] = v`: update in place when the key exists, append
otherwise. -/
def aset {α β : Type} [DecidableEq α] (l : List (α × β)) (k : α) (v : β) :
    List (α × β) :=
  match alookup l k with
  | some _ => l.map (fun p => if p.1 = k then (p.1, v) else p)
  | none => l ++ [(k, v)]

/-- The layer-0 part of one `pkg_entries` entry: the optional
`source_name` key and, per level 0-9, the `workload_requirements` map
(workload_conf_id → set of pairs), as initialized at
feedback_pipeline.py:5096-5109. -/
structure PkgEntry0 where
  source_name : Option String
  levels : List (Nat × List (String × List OPair))
deriving DecidableEq

/-- `pkg_entries` initialization for layer 0
(feedback_pipeline.py:5097-5105): every name gets empty
`workload_requirements` maps for levels 0-9. -/
def init_pkg_entries0 (names : List String) : List (String × PkgEntry0) :=
  names.map (fun n => (n,
    { source_name := none
      levels := (List.range 10).map (fun i => (i, [])) }))

/-- Ensure `workload_requirements[workload_conf_id]` exists at one level
(feedback_pipeline.py:5202-5203). -/
def entry_init_wq (e : PkgEntry0) (lvl : Nat) (wcid : String) : PkgEntry0 :=
  { e with levels := e.levels.map (fun p => if p.1 = lvl then
      (p.1, if (alookup p.2 wcid).isSome then p.2 else p.2 ++ [(wcid, [])])
      else p) }

/-- Merge a pair set into `workload_requirements[workload_conf_id]` at one
level (feedback_pipeline.py:5255-5258). -/
def entry_update_wq (e : PkgEntry0) (lvl : Nat) (wcid : String)
    (pairs : List OPair) : PkgEntry0 :=
  { e with levels := e.levels.map (fun p => if p.1 = lvl then
      (p.1,
        (if (alookup p.2 wcid).isSome then p.2 else p.2 ++ [(wcid, [])]).map
          (fun q => if q.1 = wcid then (q.1, sunion q.2 pairs) else q))
      else p) }

/-- The scan over one workload's package list
(feedback_pipeline.py:5192-5208): collect every name into
`remaining_pkg_names`, set the entry's `source_name` if absent, and seed
level 0 with the packages required by this workload instance. -/
def scan_pkgs (workload_id workload_conf_id : String) :
    List PkgQ → List (String × PkgEntry0) → List (String × List OPair) →
      List String →
      Except String
        (List (String × PkgEntry0) × List (String × List OPair) × List String)
  | [], entries, lvl0, remaining => .ok (entries, lvl0, remaining)
  | pkg :: rest, entries, lvl0, remaining =>
    match alookup entries pkg.name with
    | none => .error "KeyError: pkg_entries"
    | some e =>
      let entries1 := if e.source_name.isSome then entries
        else aset entries pkg.name { e with source_name := some pkg.source_name }
      let remaining1 := sadd pkg.name remaining
      if workload_id ∈ pkg.q_required_in then
        scan_pkgs workload_id workload_conf_id rest
          (entries1.map (fun p => if p.1 = pkg.name
            then (p.1, entry_init_wq p.2 0 workload_conf_id) else p))
          (if (alookup lvl0 pkg.name).isSome
            then lvl0.map (fun p => if p.1 = pkg.name
              then (p.1, sadd ((none : Option String), pkg.name) p.2) else p)
            else lvl0 ++ [(pkg.name, [((none : Option String), pkg.name)])])
          (remaining1.filter (fun x => decide (x ≠ pkg.name)))
      else scan_pkgs workload_id workload_conf_id rest entries1 lvl0 remaining1

/-- The pairs a package collects at one breadth-first level
(feedback_pipeline.py:5228-5233): one `(higher, pkg)` pair per
previous-level package that the package is required by.  The relation
lookup happens only when the previous level is non-empty, as in the
source, where `pkg_relations[pkg_name]` is evaluated inside the loop over
the previous level. -/
def level_pairs (rel : List (String × List String)) (prev_names : List String)
    (p : String) : Except String (List OPair) :=
  match prev_names with
  | [] => .ok []
  | _ :: _ =>
    match alookup rel p with
    | none => .error "KeyError: pkg_relations"
    | some req_by =>
      .ok ((prev_names.filter (fun h => decide (h ∈ req_by))).map
        (fun h => ((some h : Option String), p)))

/-- One breadth-first level over the remaining packages
(feedback_pipeline.py:5222-5238). -/
def bfs_level (rel : List (String × List String)) (prev_names : List String) :
    List String → Except String (List (String × List OPair))
  | [] => .ok []
  | p :: rest =>
    match level_pairs rel prev_names p with
    | .error e => .error e
    | .ok prs =>
      match bfs_level rel prev_names rest with
      | .error e => .error e
      | .ok tail => .ok (if prs.isEmpty then tail else (p, prs) :: tail)

/-- Levels 1 up to `MAX_LEVEL` of the breadth-first expansion
(feedback_pipeline.py:5216-5238), also returning the packages that remain
unplaced. -/
def bfs_levels (rel : List (String × List String)) :
    Nat → List (String × List OPair) → List String →
      Except String (List (List (String × List OPair)) × List String)
  | 0, _prev, remaining => .ok ([], remaining)
  | n+1, prev, remaining =>
    match bfs_level rel (prev.map Prod.fst) remaining with
    | .error e => .error e
    | .ok lvl =>
      match bfs_levels rel n lvl
          (remaining.filter (fun p => decide ((alookup lvl p).isNone))) with
      | .error e => .error e
      | .ok (rest, rem) => .ok (lvl :: rest, rem)

/-- `for pkg_name in remaining_pkg_names: if pkg_name not in
pkg_names_level[MAX_LEVEL]: pkg_names_level[MAX_LEVEL][pkg_name] = set()`
(feedback_pipeline.py:5241-5244): the unplaced remainder is forced into
the deepest level with an empty pair set. -/
def force_remainder (lvl9 : List (String × List OPair)) :
    List String → List (String × List OPair)
  | [] => lvl9
  | p :: rest =>
    force_remainder
      (if (alookup lvl9 p).isSome then lvl9 else lvl9 ++ [(p, [])]) rest

/-- Apply a function to the last element of a list (the in-place mutation
of `pkg_names_level[MAX_LEVEL]`). -/
def set_last {α : Type} (f : α → α) : List α → List α
  | [] => []
  | [x] => [f x]
  | x :: y :: rest => x :: set_last f (y :: rest)

/-- Merge one level's `pkg_names_level` map into `pkg_entries`
(feedback_pipeline.py:5247-5258): iterate the entries, and update those
whose name is placed at this level. -/
def merge_level (workload_conf_id : String) (lvl : Nat)
    (lvlMap : List (String × List OPair))
    (entries : List (String × PkgEntry0)) : List (String × PkgEntry0) :=
  entries.map (fun p =>
    match alookup lvlMap p.1 with
    | none => p
    | some pairs => (p.1, entry_update_wq p.2 lvl workload_conf_id pairs))

/-- Merge all ten levels, level index increasing from 0. -/
def merge_levels (workload_conf_id : String) :
    Nat → List (List (String × List OPair)) → List (String × PkgEntry0) →
      List (String × PkgEntry0)
  | _, [], entries => entries
  | i, lvl :: rest, entries =>
    merge_levels workload_conf_id (i+1) rest
      (merge_level workload_conf_id i lvl entries)

/-- Part 1 of `_process_layer_zero_entries` for one workload
(feedback_pipeline.py:5172-5258): scan, breadth-first levels 1-9, forced
remainder, and the merge into `pkg_entries`.  Also returns the final
`pkg_names_level` list (levels 0-9). -/
def process_layer_zero_workload (workload_id workload_conf_id : String)
    (pkgs : List PkgQ) (rel : List (String × List String))
    (entries : List (String × PkgEntry0)) :
    Except String
      (List (String × PkgEntry0) × List (List (String × List OPair))) :=
  match scan_pkgs workload_id workload_conf_id pkgs entries [] [] with
  | .error e => .error e
  | .ok (entries1, lvl0, remaining) =>
    match bfs_levels rel 9 lvl0 remaining with
    | .error e => .error e
    | .ok (lvls, remaining9) =>
      .ok (merge_levels workload_conf_id 0
          (set_last (fun l9 => force_remainder l9 remaining9) (lvl0 :: lvls))
          entries1,
        set_last (fun l9 => force_remainder l9 remaining9) (lvl0 :: lvls))

/-- One maintainer's ownership record for one (component, level) in layer
0 (feedback_pipeline.py:5275-5287). -/
structure OwnEntry0 where
  workloads : List (String × List String)
  pkg_names : List OPair
  pkg_count : Nat
deriving DecidableEq

/-- `srpm_entries[..]["ownership"]` restricted to layer 0: level 0-9 →
maintainer → record. -/
abbrev SrpmOwn0 := List (Nat × List (String × OwnEntry0))

/-- `srpm_entries` initialization for layer 0
(feedback_pipeline.py:5113-5123). -/
def init_srpm_entries0 (srpm_names : List String) :
    List (String × SrpmOwn0) :=
  srpm_names.map (fun n => (n, (List.range 10).map (fun i => (i, []))))

/-- The per-(package, level, workload) update of one maintainer record
(feedback_pipeline.py:5281-5287): record the package under its workload,
union the pair set in, and set `pkg_count` to the pair-set size. -/
def own_update (o : OwnEntry0) (workload_conf_id pkg_name : String)
    (pairs : List OPair) : OwnEntry0 :=
  let workloads1 := if (alookup o.workloads workload_conf_id).isSome
    then o.workloads else o.workloads ++ [(workload_conf_id, [])]
  let workloads2 := workloads1.map (fun p =>
    if p.1 = workload_conf_id then (p.1, sadd pkg_name p.2) else p)
  let pkg_names1 := sunion o.pkg_names pairs
  { workloads := workloads2, pkg_names := pkg_names1,
    pkg_count := pkg_names1.length }

/-- Record one (package, level, workload) contribution under a maintainer
in `srpm_entries` (feedback_pipeline.py:5273-5287), initializing the
maintainer record when absent. -/
def srpm_add (srpms : List (String × SrpmOwn0)) (source_name : String)
    (lvl : Nat) (maintainer workload_conf_id pkg_name : String)
    (pairs : List OPair) : Except String (List (String × SrpmOwn0)) :=
  match alookup srpms source_name with
  | none => .error "KeyError: srpm_entries"
  | some own =>
    .ok (aset srpms source_name (own.map (fun p => if p.1 = lvl then
      (p.1,
        (if (alookup p.2 maintainer).isSome then p.2
         else p.2 ++ [(maintainer,
           { workloads := [], pkg_names := [], pkg_count := 0 })]).map
          (fun q => if q.1 = maintainer then
            (q.1, own_update q.2 workload_conf_id pkg_name pairs) else q))
      else p)))

/-- The loop over one level's `workload_requirements`
(feedback_pipeline.py:5273-5287). -/
def srpm_wq_loop (confs : List (String × WorkloadConf))
    (pkg_name source_name : String) (lvl : Nat) :
    List (String × List OPair) → List (String × SrpmOwn0) →
      Except String (List (String × SrpmOwn0))
  | [], srpms => .ok srpms
  | (wcid, pairs) :: rest, srpms =>
    match alookup confs wcid with
    | none => .error "KeyError: workload conf"
    | some conf =>
      match srpm_add srpms source_name lvl conf.maintainer wcid pkg_name
          pairs with
      | .error e => .error e
      | .ok srpms1 => srpm_wq_loop confs pkg_name source_name lvl rest srpms1

/-- The loop over one package entry's ten levels
(feedback_pipeline.py:5270-5287). -/
def srpm_levels_loop (confs : List (String × WorkloadConf))
    (pkg_name source_name : String) :
    List (Nat × List (String × List OPair)) → List (String × SrpmOwn0) →
      Except String (List (String × SrpmOwn0))
  | [], srpms => .ok srpms
  | (lvl, wq) :: rest, srpms =>
    match srpm_wq_loop confs pkg_name source_name lvl wq srpms with
    | .error e => .error e
    | .ok srpms1 => srpm_levels_loop confs pkg_name source_name rest srpms1

/-- Part 2 of `_process_layer_zero_entries`
(feedback_pipeline.py:5264-5287): copy each package entry's
per-level workload requirements over to its source component, skipping
entries with no `source_name`. -/
def process_layer_zero_srpm_entries (confs : List (String × WorkloadConf)) :
    List (String × PkgEntry0) → List (String × SrpmOwn0) →
      Except String (List (String × SrpmOwn0))
  | [], srpms => .ok srpms
  | (pkg_name, e) :: rest, srpms =>
    match e.source_name with
    | none => process_layer_zero_srpm_entries confs rest srpms
    | some s =>
      match srpm_levels_loop confs pkg_name s e.levels srpms with
      | .error e2 => .error e2
      | .ok srpms1 => process_layer_zero_srpm_entries confs rest srpms1

/-! ## Ownership engine: build-dependency layers (C6, C8)

`OwnershipEngine._process_layer_pkg_entries` (feedback_pipeline.py:4845-4903)
and `OwnershipEngine._process_layer_srpm_entries`
(feedback_pipeline.py:4906-4934).  Within one layer `k`, the level names
`level{k}0` … `level{k}9` are represented by their level index 0-9. -/

/-- One entry of `self.buildroot_pkgs` (feedback_pipeline.py:5019-5032). -/
structure BuildrootPkg where
  source_name : String
  required_by : List String
  required_by_srpms : List String
deriving DecidableEq

/-- The one-layer slice of a `pkg_entries` entry used by the layer steps:
the optional `source_name` key and, per level 0-9, the
`build_source_names` set (feedback_pipeline.py:5106-5109). -/
structure LayerPkgEntry where
  source_name : Option String
  levels : List (Nat × List String)
deriving DecidableEq

/-- Set the entry's `source_name` if absent and add a build source at one
level (feedback_pipeline.py:4870-4873, 4895-4898). -/
def layer_entry_touch (e : LayerPkgEntry) (source_name : String) (lvl : Nat)
    (bsrpm : String) : LayerPkgEntry :=
  { source_name := if e.source_name.isSome then e.source_name
      else some source_name
    levels := e.levels.map (fun p => if p.1 = lvl then (p.1, sadd bsrpm p.2)
      else p) }

/-- Level 0 of one build-source's expansion
(feedback_pipeline.py:4854-4876): the buildroot-only packages directly
build-required by `bsrpm`. -/
def layer_level0_scan (bpkgs : List (String × BuildrootPkg)) (bsrpm : String) :
    List String →
      (List (String × LayerPkgEntry) × List String × List String) →
      Except String
        (List (String × LayerPkgEntry) × List String × List String)
  | [], st => .ok st
  | name :: rest, (entries, lvl0, srpmset) =>
    match alookup bpkgs name with
    | none => .error "KeyError: buildroot_pkgs"
    | some pkg =>
      if bsrpm ∈ pkg.required_by_srpms then
        match alookup entries name with
        | none => .error "KeyError: pkg_entries"
        | some e =>
          layer_level0_scan bpkgs bsrpm rest
            (aset entries name (layer_entry_touch e pkg.source_name 0 bsrpm),
              sadd name lvl0, sadd pkg.source_name srpmset)
      else layer_level0_scan bpkgs bsrpm rest (entries, lvl0, srpmset)

/-- One breadth-first level of one build-source's expansion over the
buildroot required-by graph (feedback_pipeline.py:4890-4901). -/
def layer_bfs_level (bpkgs : List (String × BuildrootPkg)) (bsrpm : String)
    (lvl : Nat) (prev : List String) :
    List String →
      (List (String × LayerPkgEntry) × List String × List String) →
      Except String
        (List (String × LayerPkgEntry) × List String × List String)
  | [], st => .ok st
  | name :: rest, (entries, placed, srpmset) =>
    match alookup bpkgs name with
    | none => .error "KeyError: buildroot_pkgs"
    | some pkg =>
      if pkg.required_by.any (fun h => decide (h ∈ prev)) then
        match alookup entries name with
        | none => .error "KeyError: pkg_entries"
        | some e =>
          layer_bfs_level bpkgs bsrpm lvl prev rest
            (aset entries name (layer_entry_touch e pkg.source_name lvl bsrpm),
              sadd name placed, sadd pkg.source_name srpmset)
      else layer_bfs_level bpkgs bsrpm lvl prev rest (entries, placed, srpmset)

/-- Levels 1-9 of one build-source's expansion
(feedback_pipeline.py:4883-4901). -/
def layer_levels_loop (bpkgs : List (String × BuildrootPkg)) (bsrpm : String) :
    Nat → Nat → List String → List String →
      (List (String × LayerPkgEntry) × List String) →
      Except String (List (String × LayerPkgEntry) × List String)
  | _lvl, 0, _prev, _remaining, st => .ok st
  | lvl, fuel+1, prev, remaining, (entries, srpmset) =>
    match layer_bfs_level bpkgs bsrpm lvl prev remaining
        (entries, [], srpmset) with
    | .error e => .error e
    | .ok (entries1, placed, srpmset1) =>
      layer_levels_loop bpkgs bsrpm (lvl+1) fuel placed
        (remaining.filter (fun n => decide (n ∉ placed)))
        (entries1, srpmset1)

/-- One build-source's full expansion (feedback_pipeline.py:4852-4901):
a fresh copy of the buildroot-only names is levelled against this build
source. -/
def layer_one_bsrpm (bpkgs : List (String × BuildrootPkg))
    (buildroot_only : List String) (bsrpm : String)
    (st : List (String × LayerPkgEntry) × List String) :
    Except String (List (String × LayerPkgEntry) × List String) :=
  match layer_level0_scan bpkgs bsrpm buildroot_only (st.1, [], st.2) with
  | .error e => .error e
  | .ok (entries1, lvl0, srpmset1) =>
    layer_levels_loop bpkgs bsrpm 1 9 lvl0
      (buildroot_only.filter (fun n => decide (n ∉ lvl0)))
      (entries1, srpmset1)

/-- The loop over the previous layer's build sources
(feedback_pipeline.py:4852). -/
def layer_bsrpms_loop (bpkgs : List (String × BuildrootPkg))
    (buildroot_only : List String) :
    List String → (List (String × LayerPkgEntry) × List String) →
      Except String (List (String × LayerPkgEntry) × List String)
  | [], st => .ok st
  | bsrpm :: rest, st =>
    match layer_one_bsrpm bpkgs buildroot_only bsrpm st with
    | .error e => .error e
    | .ok st1 => layer_bsrpms_loop bpkgs buildroot_only rest st1

/-- Embeds `OwnershipEngine._process_layer_pkg_entries`
(feedback_pipeline.py:4845-4903): a layer index outside `range(1, 10)`
raises; otherwise every build source of the previous layer is expanded
over the buildroot.  Returns the updated entries and the layer's source
components (`level_srpm_packages`). -/
def process_layer_pkg_entries (layer : Nat)
    (bpkgs : List (String × BuildrootPkg)) (buildroot_only : List String)
    (build_srpm_names : List String)
    (entries : List (String × LayerPkgEntry)) :
    Except String (List (String × LayerPkgEntry) × List String) :=
  if 1 ≤ layer ∧ layer < 10 then
    layer_bsrpms_loop bpkgs buildroot_only build_srpm_names (entries, [])
  else .error "ValueError"

/-- One maintainer's ownership record for one (component, level) in a
build-dependency layer (feedback_pipeline.py:4925-4934). -/
structure LayerOwnEntry where
  build_source_names : List (String × List String)
  pkg_count : Nat
deriving DecidableEq

/-- `srpm_entries[..]["ownership"]` restricted to one layer `k`:
level 0-9 → maintainer → record. -/
abbrev SrpmOwnK := List (Nat × List (String × LayerOwnEntry))

/-- The per-(package, build-source, maintainer) update
(feedback_pipeline.py:4930-4934): `pkg_count` is incremented by one per
contribution occurrence, and the package is recorded under the build
source. -/
def layer_own_update (o : LayerOwnEntry) (bsrpm pkg_name : String) :
    LayerOwnEntry :=
  let b1 := if (alookup o.build_source_names bsrpm).isSome
    then o.build_source_names else o.build_source_names ++ [(bsrpm, [])]
  { build_source_names := b1.map (fun p => if p.1 = bsrpm then
      (p.1, sadd pkg_name p.2) else p)
    pkg_count := o.pkg_count + 1 }

/-- Record one contribution occurrence in the layer's `srpm_entries`
(feedback_pipeline.py:4925-4934). -/
def layer_srpm_add (srpms : List (String × SrpmOwnK)) (source_name : String)
    (lvl : Nat) (maintainer bsrpm pkg_name : String) :
    Except String (List (String × SrpmOwnK)) :=
  match alookup srpms source_name with
  | none => .error "KeyError: srpm_entries"
  | some own =>
    .ok (aset srpms source_name (own.map (fun p => if p.1 = lvl then
      (p.1,
        (if (alookup p.2 maintainer).isSome then p.2
         else p.2 ++ [(maintainer,
           { build_source_names := [], pkg_count := 0 })]).map
          (fun q => if q.1 = maintainer then
            (q.1, layer_own_update q.2 bsrpm pkg_name) else q))
      else p)))

/-- The loop over one build source's tied maintainers
(feedback_pipeline.py:4923-4934). -/
def layer_maints_loop (srpms : List (String × SrpmOwnK))
    (source_name : String) (lvl : Nat) (bsrpm pkg_name : String) :
    List String → Except String (List (String × SrpmOwnK))
  | [] => .ok srpms
  | m :: rest =>
    match layer_srpm_add srpms source_name lvl m bsrpm pkg_name with
    | .error e => .error e
    | .ok srpms1 => layer_maints_loop srpms1 source_name lvl bsrpm pkg_name rest

/-- The loop over one level's build sources
(feedback_pipeline.py:4920-4934): each build source contributes its
`top_multiple` maintainers. -/
def layer_bsrpms_srpm_loop (top_multiple : List (String × List String))
    (srpms : List (String × SrpmOwnK)) (source_name : String) (lvl : Nat)
    (pkg_name : String) :
    List String → Except String (List (String × SrpmOwnK))
  | [] => .ok srpms
  | bsrpm :: rest =>
    match alookup top_multiple bsrpm with
    | none => .error "KeyError: component_maintainers"
    | some maints =>
      match layer_maints_loop srpms source_name lvl bsrpm pkg_name maints with
      | .error e => .error e
      | .ok srpms1 =>
        layer_bsrpms_srpm_loop top_multiple srpms1 source_name lvl pkg_name rest

/-- The loop over the fixed level range 0-9
(feedback_pipeline.py:4917-4918): the entry's per-level
`build_source_names` set is read for every level index, raising
`KeyError` when a level key is missing from the entry. -/
def layer_levels_srpm_loop (top_multiple : List (String × List String))
    (pkg_name source_name : String) (levels : List (Nat × List String)) :
    List Nat → List (String × SrpmOwnK) →
      Except String (List (String × SrpmOwnK))
  | [], srpms => .ok srpms
  | lvl :: rest, srpms =>
    match alookup levels lvl with
    | none => .error "KeyError: pkg level"
    | some bsrpms =>
      match layer_bsrpms_srpm_loop top_multiple srpms source_name lvl pkg_name
          bsrpms with
      | .error e => .error e
      | .ok srpms1 => layer_levels_srpm_loop top_multiple pkg_name source_name
          levels rest srpms1

/-- The loop over all package entries (feedback_pipeline.py:4911-4934). -/
def layer_entries_loop (top_multiple : List (String × List String)) :
    List (String × LayerPkgEntry) → List (String × SrpmOwnK) →
      Except String (List (String × SrpmOwnK))
  | [], srpms => .ok srpms
  | (pkg_name, e) :: rest, srpms =>
    match e.source_name with
    | none => layer_entries_loop top_multiple rest srpms
    | some s =>
      match layer_levels_srpm_loop top_multiple pkg_name s e.levels
          (List.range 10) srpms with
      | .error e2 => .error e2
      | .ok srpms1 => layer_entries_loop top_multiple rest srpms1

/-- Embeds `OwnershipEngine._process_layer_srpm_entries`
(feedback_pipeline.py:4906-4934): a layer index outside `range(1, 10)`
raises; otherwise every package entry's per-level build sources are
rolled up to its source component under the build sources' tied
maintainers. -/
def process_layer_srpm_entries (layer : Nat)
    (top_multiple : List (String × List String))
    (pkg_entries : List (String × LayerPkgEntry))
    (srpms : List (String × SrpmOwnK)) :
    Except String (List (String × SrpmOwnK)) :=
  if 1 ≤ layer ∧ layer < 10 then
    layer_entries_loop top_multiple pkg_entries srpms
  else .error "ValueError"

/-- The stored `pkg_count` of one (source, level, maintainer) triple, 0
when the triple has no record yet. -/
def triple_count (srpms : List (String × SrpmOwnK)) (source : String)
    (lvl : Nat) (maintainer : String) : Nat :=
  ((((alookup srpms source).bind (fun own => alookup own lvl)).bind
    (fun ms => alookup ms maintainer)).map (fun o => o.pkg_count)).getD 0

/-- The pair-count invariant of the layer-0 `srpm_entries` table: every
maintainer record's `pkg_count` equals the size of its (duplicate-free)
`pkg_names` pair set. -/
def PairCountInv (srpms : List (String × SrpmOwn0)) : Prop :=
  ∀ p ∈ srpms, ∀ q ∈ p.2, ∀ r ∈ q.2,
    r.2.pkg_count = r.2.pkg_names.length ∧ r.2.pkg_names.Nodup

/-- Concrete package records for the layer-zero examples: `c7A` is
required by the workload, `c7B` is neither required nor reachable. -/
def c7A : PkgQ :=
  { id := "pkgA", name := "pkgA", evr := "1", arch := "x", installsize := 0,
    description := "", summary := "", source_name := "a-src", q_arch := "x",
    q_in := ["wid"], q_required_in := ["wid"], q_env_in := [] }

def c7B : PkgQ :=
  { id := "pkgB", name := "pkgB", evr := "1", arch := "x", installsize := 0,
    description := "", summary := "", source_name := "b-src", q_arch := "x",
    q_in := ["wid"], q_required_in := [], q_env_in := [] }

/-- Runtime required-by relations for the `c7` example: nothing requires
anything. -/
def c7rel : List (String × List String) := [("pkgA", []), ("pkgB", [])]

/-- The workload configuration of the layer-zero examples. -/
def c7conf : WorkloadConf :=
  { maintainer := "alice", packages := [], arch_packages := [],
    package_placeholders := [] }

/-- Concrete package records for the pair-counting example: `c8C` and
`c8D` are required; `c8B` is required by both of them. -/
def c8C : PkgQ :=
  { id := "pkgC", name := "pkgC", evr := "1", arch := "x", installsize := 0,
    description := "", summary := "", source_name := "c-src", q_arch := "x",
    q_in := ["wid"], q_required_in := ["wid"], q_env_in := [] }

def c8D : PkgQ :=
  { id := "pkgD", name := "pkgD", evr := "1", arch := "x", installsize := 0,
    description := "", summary := "", source_name := "d-src", q_arch := "x",
    q_in := ["wid"], q_required_in := ["wid"], q_env_in := [] }

def c8B : PkgQ :=
  { id := "pkgB", name := "pkgB", evr := "1", arch := "x", installsize := 0,
    description := "", summary := "", source_name := "b-src", q_arch := "x",
    q_in := ["wid"], q_required_in := [], q_env_in := [] }

/-- Runtime required-by relations for the `c8` example: `pkgB` is
required by both `pkgC` and `pkgD`. -/
def c8rel : List (String × List String) :=
  [("pkgC", []), ("pkgD", []), ("pkgB", ["pkgC", "pkgD"])]

/-- A small concrete store used to evaluate the embedded queries: one
workload instance on one repo and arch, with one environment package and
one placeholder. -/
def qctxW : QueryCtx :=
  { workload_conf_ids := ["w1"]
    env_conf_ids := ["e1"]
    repo_ids := ["r1"]
    allowed_arches := ["x86_64"]
    workload_ids := ["w1:e1:r1:x86_64"]
    env_ids := ["e1:r1:x86_64"] }

/-- The package/workload/configuration stores matching `qctxW`. -/
def ctxW : PkgCtx :=
  { pkgs := [("r1", [("x86_64", [("pkgA-1-1.x86_64",
      { name := "pkgA", evr := "1-1", arch := "x86_64", installsize := 10,
        description := "da", summary := "sa", source_name := "pkgA-src" })])])]
    workloads_data := [("w1:e1:r1:x86_64",
      { workload_conf_id := "w1", env_conf_id := "e1", repo_id := "r1",
        arch := "x86_64", pkg_env_ids := ["pkgA-1-1.x86_64"],
        pkg_added_ids := [],
        pkg_placeholder_ids := ["ph-000-placeholder.placeholder"],
        pkg_relations := [], succeeded := true, env_succeeded := true })]
    workload_confs := [("w1",
      { maintainer := "alice", packages := ["pkgA"],
        arch_packages := [("x86_64", [])],
        package_placeholders := [("ph",
          { name := "ph", description := "dp", srpm := "ph-src" })] })] }

/-- The record list `workload_pkgs` returns on `qctxW`/`ctxW` with no
projection (sorted by id: the placeholder id sorts first). -/
def lstW : List PkgQ :=
  [{ id := "ph-000-placeholder.placeholder", name := "ph",
     evr := "000-placeholder", arch := "placeholder", installsize := 0,
     description := "dp", summary := "dp", source_name := "ph-src",
     q_arch := "x86_64", q_in := ["w1:e1:r1:x86_64"],
     q_required_in := ["w1:e1:r1:x86_64"], q_env_in := [] },
   { id := "pkgA-1-1.x86_64", name := "pkgA", evr := "1-1", arch := "x86_64",
     installsize := 10, description := "da", summary := "sa",
     source_name := "pkgA-src", q_arch := "x86_64",
     q_in := ["w1:e1:r1:x86_64"], q_required_in := ["w1:e1:r1:x86_64"],
     q_env_in := ["w1:e1:r1:x86_64"] }]

/-- The accumulator `workload_pkgs_acc` builds on `qctxW`/`ctxW`. -/
def accW : PkgsAcc :=
  [(("r1", "x86_64", "pkgA-1-1.x86_64"),
    { id := "pkgA-1-1.x86_64", name := "pkgA", evr := "1-1", arch := "x86_64",
      installsize := 10, description := "da", summary := "sa",
      source_name := "pkgA-src", q_arch := "x86_64",
      q_in := ["w1:e1:r1:x86_64"], q_required_in := ["w1:e1:r1:x86_64"],
      q_env_in := ["w1:e1:r1:x86_64"] }),
   (("r1", "x86_64", "ph-000-placeholder.placeholder"),
    { id := "ph-000-placeholder.placeholder", name := "ph",
      evr := "000-placeholder", arch := "placeholder", installsize := 0,
      description := "dp", summary := "dp", source_name := "ph-src",
      q_arch := "x86_64", q_in := ["w1:e1:r1:x86_64"],
      q_required_in := ["w1:e1:r1:x86_64"], q_env_in := [] })]

/-! # Theorems -/

/-! ## Container helper lemmas -/

theorem mem_sadd {α : Type} [DecidableEq α] {x y : α} {l : List α} :
    y ∈ sadd x l ↔ y = x ∨ y ∈ l := by
  unfold sadd
  split
  · constructor
    · exact fun h => Or.inr h
    · rintro (rfl | h) <;> assumption
  · simp

theorem self_mem_sadd {α : Type} [DecidableEq α] (x : α) (l : List α) :
    x ∈ sadd x l := by
  rw [mem_sadd]; left; rfl

theorem subset_sadd {α : Type} [DecidableEq α] (x : α) (l : List α) :
    ∀ y ∈ l, y ∈ sadd x l := by
  intro y hy; rw [mem_sadd]; right; exact hy

theorem nodup_sadd {α : Type} [DecidableEq α] (x : α) {l : List α}
    (h : l.Nodup) : (sadd x l).Nodup := by
  unfold sadd
  split
  · exact h
  · exact List.Nodup.cons (by assumption) h

theorem mem_sunion {α : Type} [DecidableEq α] {y : α} {l new : List α} :
    y ∈ sunion l new ↔ y ∈ l ∨ y ∈ new := by
  induction new generalizing l with
  | nil => simp [sunion]
  | cons a rest ih =>
    simp only [sunion, List.foldl_cons] at *
    rw [ih, mem_sadd, List.mem_cons]
    tauto

theorem nodup_sunion {α : Type} [DecidableEq α] {l new : List α}
    (h : l.Nodup) : (sunion l new).Nodup := by
  induction new generalizing l with
  | nil => exact h
  | cons a rest ih =>
    simp only [sunion, List.foldl_cons]
    exact ih (nodup_sadd a h)

theorem alookup_some_mem {α β : Type} [DecidableEq α] {l : List (α × β)}
    {k : α} {v : β} (h : alookup l k = some v) : (k, v) ∈ l := by
  induction l with
  | nil => simp [alookup] at h
  | cons p rest ih =>
    obtain ⟨k', v'⟩ := p
    by_cases hk : k = k'
    · subst hk
      simp [alookup] at h
      subst h
      exact List.mem_cons_self _ _
    · simp [alookup, hk] at h
      exact List.mem_cons_of_mem _ (ih h)

/-- A generic preservation principle for folds: a step-invariant property
holds of the final accumulator. -/
theorem foldl_preserves {α β : Type} (P : β → Prop) (f : β → α → β)
    (l : List α) (init : β) (hinit : P init)
    (hstep : ∀ acc x, P acc → P (f acc x)) : P (List.foldl f init l) := by
  induction l generalizing init with
  | nil => exact hinit
  | cons a rest ih => exact ih (f init a) (hstep init a hinit)

/-! ## Sorting helper lemmas -/

theorem charListLe_total : ∀ a b : List Char, charListLe a b = true ∨ charListLe b a = true := by
  intro a
  induction a with
  | nil => intro b; left; rfl
  | cons c cs ih =>
    intro b
    cases b with
    | nil => right; rfl
    | cons d ds =>
      by_cases hcd : c = d
      · subst hcd
        simpa [charListLe] using ih ds
      · rcases lt_or_gt_of_ne hcd with h | h
        · left; simp [charListLe, hcd, h]
        · right
          simp [charListLe, Ne.symm hcd]
          exact h

theorem charListLe_trans : ∀ a b c : List Char,
    charListLe a b = true → charListLe b c = true → charListLe a c = true := by
  intro a
  induction a with
  | nil => intro b c _ _; rfl
  | cons x xs ih =>
    intro b c hab hbc
    cases b with
    | nil => simp [charListLe] at hab
    | cons y ys =>
      cases c with
      | nil => simp [charListLe] at hbc
      | cons z zs =>
        by_cases hxy : x = y
        · subst hxy
          simp only [charListLe, if_pos rfl] at hab
          by_cases hyz : x = z
          · subst hyz
            simp only [charListLe, if_pos rfl] at hbc ⊢
            exact ih ys zs hab hbc
          · simp only [charListLe, if_neg hyz] at hbc ⊢
            exact hbc
        · simp only [charListLe, if_neg hxy, decide_eq_true_eq] at hab
          by_cases hyz : y = z
          · subst hyz
            simp [charListLe, hxy, hab]
          · simp only [charListLe, if_neg hyz, decide_eq_true_eq] at hbc
            have hxz : x < z := lt_trans hab hbc
            simp [charListLe, ne_of_lt hxz, hxz]

instance pyStrLeRelTotal : IsTotal String (fun a b => pyStrLe a b = true) :=
  ⟨fun a b => charListLe_total a.data b.data⟩

instance pyStrLeRelTrans : IsTrans String (fun a b => pyStrLe a b = true) :=
  ⟨fun a b c => charListLe_trans a.data b.data c.data⟩

theorem pySorted_sorted (l : List String) :
    (pySorted l).Sorted (fun a b => pyStrLe a b = true) :=
  List.sorted_insertionSort (fun a b => pyStrLe a b = true) l

theorem pySorted_nodup {l : List String} (h : l.Nodup) : (pySorted l).Nodup :=
  (List.perm_insertionSort (fun a b => pyStrLe a b = true) l).symm.nodup h

theorem pySorted_mem {l : List String} {x : String} :
    x ∈ pySorted l ↔ x ∈ l :=
  (List.perm_insertionSort (fun a b => pyStrLe a b = true) l).mem_iff

/-! ## Query matching-set lemmas -/

theorem workloads_matching_nodup (ctx : QueryCtx)
    (wci eci ri ar oc : Option String) :
    (workloads_matching ctx wci eci ri ar oc).Nodup := by
  unfold workloads_matching
  refine foldl_preserves List.Nodup _ _ _ List.nodup_nil ?_
  intro acc w hacc
  refine foldl_preserves List.Nodup _ _ _ hacc ?_
  intro acc e hacc
  refine foldl_preserves List.Nodup _ _ _ hacc ?_
  intro acc r hacc
  refine foldl_preserves List.Nodup _ _ _ hacc ?_
  intro acc a hacc
  split
  · exact nodup_sadd _ hacc
  · exact hacc

theorem envs_matching_nodup (ctx : QueryCtx)
    (eci ri ar oc : Option String) :
    (envs_matching ctx eci ri ar oc).Nodup := by
  unfold envs_matching
  refine foldl_preserves List.Nodup _ _ _ List.nodup_nil ?_
  intro acc e hacc
  refine foldl_preserves List.Nodup _ _ _ hacc ?_
  intro acc r hacc
  refine foldl_preserves List.Nodup _ _ _ hacc ?_
  intro acc a hacc
  split
  · exact nodup_sadd _ hacc
  · exact hacc

/-! ## Claim theorems (C1, C5, C4) -/

/-- C1: a workload instance whose underlying environment instance has
`succeeded = false` reports `succeeded = false`, `env_succeeded = false`,
and empty `pkg_env_ids`, `pkg_added_ids` and `pkg_placeholder_ids`,
regardless of the packages its own workload configuration lists. -/
theorem failed_env_blanks_workload (env_succeeded : Bool) (analyzed : Workload)
    (workload_conf_id env_conf_id repo_id arch : String)
    (h : env_succeeded = false) :
    (analyze_workloads_dispatch env_succeeded analyzed
        workload_conf_id env_conf_id repo_id arch).succeeded = false ∧
    (analyze_workloads_dispatch env_succeeded analyzed
        workload_conf_id env_conf_id repo_id arch).env_succeeded = false ∧
    (analyze_workloads_dispatch env_succeeded analyzed
        workload_conf_id env_conf_id repo_id arch).pkg_env_ids = [] ∧
    (analyze_workloads_dispatch env_succeeded analyzed
        workload_conf_id env_conf_id repo_id arch).pkg_added_ids = [] ∧
    (analyze_workloads_dispatch env_succeeded analyzed
        workload_conf_id env_conf_id repo_id arch).pkg_placeholder_ids = [] := by
  subst h
  simp [analyze_workloads_dispatch, return_failed_workload_env_err]

/-- Witness for C1 at a concrete input. -/
theorem failed_env_blanks_workload_witness :
    (analyze_workloads_dispatch false
        (return_failed_workload_env_err "w" "e" "r" "a") "w1" "e1" "r1" "x86_64").succeeded
      = false := by
  exact (failed_env_blanks_workload false
    (return_failed_workload_env_err "w" "e" "r" "a") "w1" "e1" "r1" "x86_64" rfl).1

/-- C5: a valid composite id (three or four colon-joined parts, none empty
and none containing a colon) decomposes into its dimension components and
recomposes, via the id-string builders, to the original string. -/
theorem id_decompose_recompose (s : List Char)
    (hvalid : ∀ p ∈ id_components s, p ≠ [] ∧ ':' ∉ p) :
    (∀ e r a, id_components s = [e, r, a] → env_id_chars e r a = s) ∧
    (∀ w e r a, id_components s = [w, e, r, a] → workload_id_chars w e r a = s) := by
  have hround : [':'].intercalate (s.splitOn ':') = s :=
    List.intercalate_splitOn s ':'
  constructor
  · intro e r a hsplit
    rw [id_components] at hsplit
    rw [hsplit] at hround
    rw [← hround]
    simp [env_id_chars, List.intercalate, List.intersperse]
  · intro w e r a hsplit
    rw [id_components] at hsplit
    rw [hsplit] at hround
    rw [← hround]
    simp [workload_id_chars, List.intercalate, List.intersperse]

/-- Witness for C5 at the concrete ids `e1:r1:a1` and `w1:e1:r1:a1`. -/
theorem id_decompose_recompose_witness :
    env_id_chars "e1".toList "r1".toList "a1".toList = "e1:r1:a1".toList ∧
    workload_id_chars "w1".toList "e1".toList "r1".toList "a1".toList
      = "w1:e1:r1:a1".toList := by
  constructor
  · exact (id_decompose_recompose "e1:r1:a1".toList (by decide)).1
      "e1".toList "r1".toList "a1".toList (by decide)
  · exact (id_decompose_recompose "w1:e1:r1:a1".toList (by decide)).2
      "w1".toList "e1".toList "r1".toList "a1".toList (by decide)

/-- C4: for every combination of filter arguments, enumeration-mode
workload and environment queries (with or without a valid projection)
return a duplicate-free list sorted lexicographically, and calling the
same query twice with identical arguments returns identical results. -/
theorem list_all_sorted_nodup_idempotent (ctx : QueryCtx)
    (wci eci ri ar : Option String) (ocw oce : Option String)
    (hw : ocw = none ∨ ocw = some "workload_conf_ids" ∨ ocw = some "env_conf_ids" ∨
      ocw = some "repo_ids" ∨ ocw = some "arches")
    (he : oce = none ∨ oce = some "env_conf_ids" ∨ oce = some "repo_ids" ∨
      oce = some "arches") :
    (∃ l, workloads ctx wci eci ri ar ocw = .ok l ∧
      l.Sorted (fun a b => pyStrLe a b = true) ∧ l.Nodup) ∧
    (∃ l, envs ctx eci ri ar oce = .ok l ∧
      l.Sorted (fun a b => pyStrLe a b = true) ∧ l.Nodup) ∧
    workloads ctx wci eci ri ar ocw = workloads ctx wci eci ri ar ocw ∧
    envs ctx eci ri ar oce = envs ctx eci ri ar oce := by
  refine ⟨?_, ?_, rfl, rfl⟩
  · have hok : workloads ctx wci eci ri ar ocw =
        .ok (pySorted (workloads_matching ctx wci eci ri ar ocw)) := by
      rcases hw with rfl | rfl | rfl | rfl | rfl <;>
        simp [workloads, pyTruthyStr]
    exact ⟨_, hok, pySorted_sorted _,
      pySorted_nodup (workloads_matching_nodup ctx wci eci ri ar ocw)⟩
  · have hok : envs ctx eci ri ar oce =
        .ok (pySorted (envs_matching ctx eci ri ar oce)) := by
      rcases he with rfl | rfl | rfl | rfl <;>
        simp [envs, pyTruthyStr]
    exact ⟨_, hok, pySorted_sorted _,
      pySorted_nodup (envs_matching_nodup ctx eci ri ar oce)⟩

/-- Witness for C4 on a concrete two-workload store with a projection on
one query and none on the other. -/
theorem list_all_sorted_nodup_idempotent_witness :
    ∃ l, workloads
        { workload_conf_ids := ["w2", "w1"], env_conf_ids := ["e1"],
          repo_ids := ["r1"], allowed_arches := ["x86_64", "aarch64"],
          workload_ids := ["w1:e1:r1:x86_64", "w2:e1:r1:aarch64"],
          env_ids := ["e1:r1:x86_64"] }
        none none none none (some "arches") = .ok l ∧
      l.Sorted (fun a b => pyStrLe a b = true) ∧ l.Nodup :=
  (list_all_sorted_nodup_idempotent
    { workload_conf_ids := ["w2", "w1"], env_conf_ids := ["e1"],
      repo_ids := ["r1"], allowed_arches := ["x86_64", "aarch64"],
      workload_ids := ["w1:e1:r1:x86_64", "w2:e1:r1:aarch64"],
      env_ids := ["e1:r1:x86_64"] }
    none none none none (some "arches") none
    (by right; right; right; right; rfl) (Or.inl rfl)).1

/-! ## Association-list lemmas for the resolution pass -/

theorem alookup_append {α β : Type} [DecidableEq α] (l₁ l₂ : List (α × β))
    (k : α) :
    alookup (l₁ ++ l₂) k =
      match alookup l₁ k with
      | some v => some v
      | none => alookup l₂ k := by
  induction l₁ with
  | nil => simp [alookup]
  | cons p rest ih =>
    obtain ⟨a, b⟩ := p
    by_cases h : k = a <;> simp [alookup, h, ih]

theorem alookup_eq_none_iff {α β : Type} [DecidableEq α]
    {l : List (α × β)} {k : α} :
    alookup l k = none ↔ k ∉ l.map Prod.fst := by
  induction l with
  | nil => simp [alookup]
  | cons p rest ih =>
    obtain ⟨a, b⟩ := p
    by_cases h : k = a <;> simp [alookup, h, ih]

theorem alookup_isSome_of_mem_keys {α β : Type} [DecidableEq α]
    {l : List (α × β)} {k : α} (h : k ∈ l.map Prod.fst) :
    ∃ v, alookup l k = some v := by
  cases hv : alookup l k with
  | none => exact absurd (alookup_eq_none_iff.mp hv) (by simpa using h)
  | some v => exact ⟨v, rfl⟩

theorem alookup_map_if {α β : Type} [DecidableEq α] (l : List (α × β))
    (s : α) (f : β → β) (k : α) :
    alookup (l.map (fun p => if p.1 = s then (p.1, f p.2) else p)) k =
      if k = s then (alookup l k).map f else alookup l k := by
  induction l with
  | nil => by_cases h : k = s <;> simp [alookup, h]
  | cons p rest ih =>
    obtain ⟨a, b⟩ := p
    simp only [List.map_cons]
    by_cases has : a = s
    · rw [if_pos has]
      by_cases hk : k = a
      · subst hk
        rw [has]
        simp [alookup]
      · simp [alookup, hk, ih]
    · rw [if_neg has]
      by_cases hk : k = a
      · subst hk
        simp [alookup, has]
      · simp [alookup, hk, ih]

theorem alookup_map_const {α β : Type} [DecidableEq α] (l : List (α × β))
    (s : α) (v : β) (k : α) :
    alookup (l.map (fun p => if p.1 = s then (p.1, v) else p)) k =
      if k = s then (alookup l k).map (fun _ => v) else alookup l k :=
  alookup_map_if l s (fun _ => v) k

theorem map_fst_map_if {α β : Type} [DecidableEq α] (l : List (α × β))
    (s : α) (f : β → β) :
    (l.map (fun p => if p.1 = s then (p.1, f p.2) else p)).map Prod.fst =
      l.map Prod.fst := by
  rw [List.map_map]
  apply List.map_congr_left
  intro p _
  by_cases h : p.1 = s <;> simp [h]

theorem sadd_ne_nil {α : Type} [DecidableEq α] (x : α) (l : List α) :
    sadd x l ≠ [] := by
  unfold sadd
  split
  · intro h
    subst h
    simp at *
  · simp

/-! ## Score-grouping lemmas -/

theorem alookup_add_score (acc : List (Nat × List String)) (m : String)
    (s k : Nat) :
    alookup (add_score acc m s) k =
      if k = s then some (sadd m ((alookup acc s).getD []))
      else alookup acc k := by
  unfold add_score
  cases h : alookup acc s with
  | none =>
    rw [alookup_map_if]
    by_cases hk : k = s
    · subst hk
      rw [if_pos rfl, if_pos rfl, alookup_append, h]
      simp [alookup]
    · rw [if_neg hk, if_neg hk, alookup_append]
      cases hk2 : alookup acc k with
      | none => simp [alookup, hk]
      | some v => simp
  | some g =>
    rw [alookup_map_if]
    by_cases hk : k = s
    · subst hk
      rw [if_pos rfl, if_pos rfl, h]
      simp
    · rw [if_neg hk, if_neg hk]

theorem add_score_inv (acc : List (Nat × List String)) (m : String) (s : Nat)
    (h : ((acc.map Prod.fst).Nodup ∧
      ∀ p ∈ acc, p.2 ≠ [] ∧ p.2.Nodup)) :
    (((add_score acc m s).map Prod.fst).Nodup ∧
      ∀ p ∈ add_score acc m s, p.2 ≠ [] ∧ p.2.Nodup) := by
  obtain ⟨hkeys, hgroups⟩ := h
  constructor
  · unfold add_score
    cases hl : alookup acc s with
    | none =>
      rw [map_fst_map_if, List.map_append]
      simp only [List.map_cons, List.map_nil]
      rw [List.nodup_append]
      refine ⟨hkeys, List.nodup_singleton s, ?_⟩
      intro x hx
      simp only [List.mem_singleton]
      intro hxs
      subst hxs
      exact absurd hx (alookup_eq_none_iff.mp hl)
    | some g =>
      rw [map_fst_map_if]
      exact hkeys
  · unfold add_score
    cases hl : alookup acc s with
    | none =>
      intro p hp
      rw [List.mem_map] at hp
      obtain ⟨q, hq, hpq⟩ := hp
      obtain ⟨qk, qv⟩ := q
      dsimp only at hpq
      rcases List.mem_append.mp hq with hq1 | hq2
      · have hprop := hgroups _ hq1
        by_cases hqs : qk = s
        · rw [if_pos hqs] at hpq
          subst hpq
          exact ⟨show sadd m qv ≠ [] from sadd_ne_nil _ _,
            show (sadd m qv).Nodup from nodup_sadd _ hprop.2⟩
        · rw [if_neg hqs] at hpq
          subst hpq
          exact hprop
      · simp only [List.mem_singleton, Prod.mk.injEq] at hq2
        obtain ⟨rfl, rfl⟩ := hq2
        rw [if_pos rfl] at hpq
        subst hpq
        exact ⟨show sadd m [] ≠ [] from sadd_ne_nil _ _,
          show (sadd m []).Nodup from nodup_sadd _ List.nodup_nil⟩
    | some g =>
      intro p hp
      rw [List.mem_map] at hp
      obtain ⟨q, hq, hpq⟩ := hp
      obtain ⟨qk, qv⟩ := q
      dsimp only at hpq
      have hprop := hgroups _ hq
      by_cases hqs : qk = s
      · rw [if_pos hqs] at hpq
        subst hpq
        exact ⟨show sadd m qv ≠ [] from sadd_ne_nil _ _,
          show (sadd m qv).Nodup from nodup_sadd _ hprop.2⟩
      · rw [if_neg hqs] at hpq
        subst hpq
        exact hprop

theorem maintainer_scores_inv (ms : List (String × Nat)) :
    (((maintainer_scores ms).map Prod.fst).Nodup ∧
      ∀ p ∈ maintainer_scores ms, p.2 ≠ [] ∧ p.2.Nodup) := by
  unfold maintainer_scores
  exact foldl_preserves
    (fun acc => ((acc.map Prod.fst).Nodup ∧
      ∀ p ∈ acc, p.2 ≠ [] ∧ p.2.Nodup))
    (fun acc p => add_score acc p.1 p.2) ms []
    ⟨List.nodup_nil, by simp⟩
    (fun acc p hacc => add_score_inv acc p.1 p.2 hacc)

theorem foldl_add_score_lookup (ms : List (String × Nat))
    (acc : List (Nat × List String)) (s : Nat) (m : String) :
    (∃ g, alookup (ms.foldl (fun acc p => add_score acc p.1 p.2) acc) s
        = some g ∧ m ∈ g) ↔
      (∃ g, alookup acc s = some g ∧ m ∈ g) ∨ (m, s) ∈ ms := by
  induction ms generalizing acc with
  | nil => simp
  | cons p rest ih =>
    obtain ⟨m', s'⟩ := p
    rw [List.foldl_cons, ih]
    have hstep : (∃ g, alookup (add_score acc m' s') s = some g ∧ m ∈ g) ↔
        (∃ g, alookup acc s = some g ∧ m ∈ g) ∨ (m = m' ∧ s = s') := by
      rw [alookup_add_score]
      by_cases hs : s = s'
      · subst hs
        rw [if_pos rfl]
        constructor
        · rintro ⟨g, hg, hmg⟩
          injection hg with hg
          subst hg
          rcases mem_sadd.mp hmg with rfl | hmold
          · right; exact ⟨rfl, rfl⟩
          · left
            cases hold : alookup acc s with
            | none => rw [hold] at hmold; simp at hmold
            | some g0 => rw [hold] at hmold; exact ⟨g0, rfl, hmold⟩
        · rintro (⟨g, hg, hmg⟩ | ⟨rfl, _⟩)
          · exact ⟨_, rfl, mem_sadd.mpr (Or.inr (by rw [hg]; exact hmg))⟩
          · exact ⟨_, rfl, self_mem_sadd _ _⟩
      · rw [if_neg hs]
        constructor
        · intro h; left; exact h
        · rintro (h | ⟨rfl, rfl⟩)
          · exact h
          · exact absurd rfl hs
    rw [hstep]
    constructor
    · rintro ((h | ⟨rfl, rfl⟩) | h)
      · exact Or.inl h
      · exact Or.inr (List.mem_cons_self _ _)
      · exact Or.inr (List.mem_cons_of_mem _ h)
    · rintro (h | h)
      · exact Or.inl (Or.inl h)
      · rcases List.mem_cons.mp h with he | hrest
        · rw [Prod.mk.injEq] at he
          exact Or.inl (Or.inr he)
        · exact Or.inr hrest

theorem maintainer_scores_lookup (ms : List (String × Nat)) (s : Nat)
    (m : String) :
    (∃ g, alookup (maintainer_scores ms) s = some g ∧ m ∈ g) ↔
      (m, s) ∈ ms := by
  unfold maintainer_scores
  rw [foldl_add_score_lookup]
  simp [alookup]

theorem one_lt_length_of_two_mem {α : Type} {l : List α} {a b : α}
    (hab : a ≠ b) (ha : a ∈ l) (hb : b ∈ l) : 1 < l.length := by
  cases l with
  | nil => cases ha
  | cons x t =>
    cases t with
    | nil =>
      simp only [List.mem_singleton] at ha hb
      exact absurd (ha.trans hb.symm) hab
    | cons y t2 =>
      simp only [List.length_cons]
      omega

theorem eq_singleton_of_nodup_mem {α : Type} {l : List α} {m : α}
    (hnd : l.Nodup) (hm : m ∈ l) (hall : ∀ x ∈ l, x = m) : l = [m] := by
  cases l with
  | nil => cases hm
  | cons x t =>
    have hx := hall x (List.mem_cons_self _ _)
    subst hx
    cases t with
    | nil => rfl
    | cons y t2 =>
      have hy := hall y (by simp)
      rw [List.nodup_cons] at hnd
      have : x ∈ y :: t2 := by rw [hy]; exact List.mem_cons_self _ _
      exact absurd this hnd.1

/-- C2: for a component's collected non-skipped maintainer → score map,
grouping maintainers by score and taking the highest score `s₀`: a unique
holder of `s₀` becomes `top` with `top_multiple` the singleton containing
it; two or more tied holders leave `top` unresolved (`none`) with
`top_multiple` exactly the full tied set. -/
theorem top_maintainer_resolution (maintainers : List (String × Nat)) (s₀ : Nat)
    (hmem : ∃ m, (m, s₀) ∈ maintainers)
    (hmax : ∀ p ∈ maintainers, p.2 ≤ s₀) :
    ((∃! m, (m, s₀) ∈ maintainers) →
      ∀ m, (m, s₀) ∈ maintainers →
        process_component maintainers = (some m, [m])) ∧
    ((∃ m₁ m₂, m₁ ≠ m₂ ∧ (m₁, s₀) ∈ maintainers ∧ (m₂, s₀) ∈ maintainers) →
      (process_component maintainers).1 = none ∧
      ∀ m, (m ∈ (process_component maintainers).2 ↔ (m, s₀) ∈ maintainers)) := by
  obtain ⟨m₀, hm₀⟩ := hmem
  obtain ⟨g₀, hg₀, hm₀g⟩ := (maintainer_scores_lookup maintainers s₀ m₀).mpr hm₀
  have hmemg : ∀ x, (x, s₀) ∈ maintainers ↔ x ∈ g₀ := by
    intro x
    constructor
    · intro hx
      obtain ⟨g, hg, hxg⟩ := (maintainer_scores_lookup maintainers s₀ x).mpr hx
      rw [hg₀] at hg
      injection hg with he
      exact he.symm ▸ hxg
    · intro hx
      exact (maintainer_scores_lookup maintainers s₀ x).mp ⟨g₀, hg₀, hx⟩
  have hs₀key : s₀ ∈ (maintainer_scores maintainers).map Prod.fst :=
    List.mem_map_of_mem Prod.fst (alookup_some_mem hg₀)
  have hperm := List.perm_insertionSort (fun a b : Nat => a ≥ b)
    ((maintainer_scores maintainers).map Prod.fst)
  have hs₀sorted : s₀ ∈ List.insertionSort (fun a b : Nat => a ≥ b)
      ((maintainer_scores maintainers).map Prod.fst) := hperm.mem_iff.mpr hs₀key
  cases hcase : List.insertionSort (fun a b : Nat => a ≥ b)
      ((maintainer_scores maintainers).map Prod.fst) with
  | nil => rw [hcase] at hs₀sorted; cases hs₀sorted
  | cons s₁ rest =>
    have hsort := List.sorted_insertionSort (fun a b : Nat => a ≥ b)
      ((maintainer_scores maintainers).map Prod.fst)
    rw [hcase] at hsort hperm hs₀sorted
    have hs₁key : s₁ ∈ (maintainer_scores maintainers).map Prod.fst :=
      hperm.subset (List.mem_cons_self _ _)
    obtain ⟨g₁, hg₁⟩ := alookup_isSome_of_mem_keys hs₁key
    have hg₁props := (maintainer_scores_inv maintainers).2 _ (alookup_some_mem hg₁)
    obtain ⟨m₁, hm₁g⟩ := List.exists_mem_of_ne_nil _ hg₁props.1
    have hm₁mem : (m₁, s₁) ∈ maintainers :=
      (maintainer_scores_lookup maintainers s₁ m₁).mp ⟨g₁, hg₁, hm₁g⟩
    have hs₁le : s₁ ≤ s₀ := hmax _ hm₁mem
    have hs₀le : s₀ ≤ s₁ := by
      rcases List.mem_cons.mp hs₀sorted with rfl | hmem2
      · exact le_refl _
      · exact List.rel_of_sorted_cons hsort _ hmem2
    have hseq : s₁ = s₀ := le_antisymm hs₁le hs₀le
    rw [hseq] at hg₁ hcase
    rw [hg₀] at hg₁
    injection hg₁ with hg₁e
    subst hg₁e
    have heval : process_component maintainers =
        (if 1 < g₀.length then ((none : Option String), g₀)
         else if g₀.length = 1 then (g₀.head?, g₀)
         else pick_top (maintainer_scores maintainers) rest) := by
      unfold process_component
      rw [hcase]
      simp only [pick_top, hg₀, Option.getD_some]
    have hg₀props := (maintainer_scores_inv maintainers).2 _ (alookup_some_mem hg₀)
    constructor
    · rintro ⟨mu, hmu, huniq⟩ m hm
      have hmg : m ∈ g₀ := (hmemg m).mp hm
      have hall : ∀ x ∈ g₀, x = m := by
        intro x hx
        have hxmem : (x, s₀) ∈ maintainers := (hmemg x).mpr hx
        exact (huniq x hxmem).trans (huniq m hm).symm
      have hg₀eq : g₀ = [m] := eq_singleton_of_nodup_mem hg₀props.2 hmg hall
      rw [heval, hg₀eq]
      simp
    · rintro ⟨ma, mb, hne, h1, h2⟩
      have hlen : 1 < g₀.length :=
        one_lt_length_of_two_mem hne ((hmemg ma).mp h1) ((hmemg mb).mp h2)
      rw [heval, if_pos hlen]
      exact ⟨rfl, fun m => ⟨fun hm => (hmemg m).mpr hm, fun hm => (hmemg m).mp hm⟩⟩

/-- Witness for C2: a unique highest-score maintainer resolves as `top`. -/
theorem top_maintainer_resolution_witness :
    process_component [("alice", 2), ("bob", 1)] = (some "alice", ["alice"]) :=
  (top_maintainer_resolution [("alice", 2), ("bob", 1)] 2
    ⟨"alice", by decide⟩ (by decide)).1
    ⟨"alice", by decide, by
      intro y hy
      simp only [List.mem_cons, Prod.mk.injEq, List.not_mem_nil,
        or_false] at hy
      rcases hy with ⟨h, _⟩ | ⟨_, h2⟩
      · exact h
      · exact absurd h2 (by decide)⟩
    "alice" (by decide)

/-- The resolution pass leaves a component's stored entry untouched when
its stored `top` is truthy, and also when the component does not occur in
the processed table. -/
theorem process_pass_preserves (skipped : List String)
    (srpms : List (String × List (String × LevelScores)))
    (cm cm' : List (String × CompMaint)) (comp : String) (entry : CompMaint)
    (hrun : process_layer_component_maintainers skipped srpms cm = .ok cm')
    (hlook : alookup cm comp = some entry)
    (hcond : pyTruthyStr entry.top = true ∨ comp ∉ srpms.map Prod.fst) :
    alookup cm' comp = some entry := by
  induction srpms generalizing cm with
  | nil =>
    simp only [process_layer_component_maintainers] at hrun
    injection hrun with he
    exact he ▸ hlook
  | cons p rest ih =>
    obtain ⟨c, od⟩ := p
    simp only [process_layer_component_maintainers] at hrun
    cases hce : alookup cm c with
    | none =>
      simp only [hce] at hrun
      exact absurd hrun (by simp)
    | some e =>
      simp only [hce] at hrun
      by_cases ht : pyTruthyStr e.top = true
      · rw [if_pos ht] at hrun
        refine ih cm hrun hlook ?_
        rcases hcond with h | h
        · exact Or.inl h
        · right
          simp only [List.map_cons, List.mem_cons] at h
          exact fun hm => h (Or.inr hm)
      · rw [if_neg ht] at hrun
        have hlook2 : alookup (cm.map (fun p => if p.1 = c then
            (p.1, { all := collect_maintainers skipped od,
                    top_multiple :=
                      (process_component (collect_maintainers skipped od)).2,
                    top :=
                      (process_component (collect_maintainers skipped od)).1 })
            else p)) comp = some entry := by
          rw [alookup_map_const]
          by_cases hc : comp = c
          · subst hc
            rw [hlook] at hce
            injection hce with hee
            rcases hcond with htr | hnk
            · rw [← hee] at ht
              exact absurd htr ht
            · exact absurd (by simp [List.map_cons] : comp ∈
                ((comp, od) :: rest).map Prod.fst) hnk
          · rw [if_neg hc]
            exact hlook
        refine ih _ hrun hlook2 ?_
        rcases hcond with h | h
        · exact Or.inl h
        · right
          simp only [List.map_cons, List.mem_cons] at h
          exact fun hm => h (Or.inr hm)

/-- C9 (amended): once a component's `top` holds a nonempty maintainer
name, a resolution pass leaves its `top`, `top_multiple` and `all` fields
unchanged, because the pass guard skips every component whose stored `top`
is Python-truthy.  Resolution is re-attempted exactly for components whose
`top` is `None` or the empty string. -/
theorem resolved_nonempty_top_stable (skipped : List String)
    (srpms : List (String × List (String × LevelScores)))
    (cm cm' : List (String × CompMaint)) (comp : String) (entry : CompMaint)
    (m : String) (hm : entry.top = some m) (hne : m ≠ "")
    (hrun : process_layer_component_maintainers skipped srpms cm = .ok cm')
    (hlook : alookup cm comp = some entry) :
    alookup cm' comp = some entry := by
  apply process_pass_preserves skipped srpms cm cm' comp entry hrun hlook
  left
  rw [hm]
  simp [pyTruthyStr, hne]

/-- Witness for C9: a component resolved to a nonempty maintainer is left
untouched by a later pass. -/
theorem resolved_nonempty_top_stable_witness :
    ∃ cm', process_layer_component_maintainers []
        [("c1", [("level0", [("bob", 2)])])]
        [("c1", { all := [("alice", 1)], top_multiple := ["alice"], top := some "alice" })]
        = .ok cm' ∧
      alookup cm' "c1" =
        some { all := [("alice", 1)], top_multiple := ["alice"], top := some "alice" } := by
  refine ⟨_, rfl, ?_⟩
  exact resolved_nonempty_top_stable [] [("c1", [("level0", [("bob", 2)])])]
    [("c1", { all := [("alice", 1)], top_multiple := ["alice"], top := some "alice" })]
    _ "c1"
    { all := [("alice", 1)], top_multiple := ["alice"], top := some "alice" }
    "alice" rfl (by decide) rfl rfl

/-- C9 counterexample: maintainer names are read with `str(...)` and never
checked for non-emptiness, so the empty string is a possible maintainer.
A component whose `top` has been set to the non-`None` value `""` (which
one pass produces when `""` is the sole highest-scored maintainer) is
re-processed by the next pass — the truthiness guard does not skip it —
and that pass changes its `top`. -/
theorem resolution_guard_counterexample :
    (some "" : Option String) ≠ none ∧
    (process_layer_component_maintainers []
        [("comp", [("level0", [("", 1), ("bob", 2)])])]
        [("comp", { all := [("", 1)], top_multiple := [""], top := some "" })]).map
      (fun cm' => (alookup cm' "comp").map CompMaint.top) =
      .ok (some (some "bob")) := by
  exact ⟨by simp, by decide⟩

/-! ## Accumulator lemmas for `workload_pkgs` -/

theorem AccExtends_refl (acc : PkgsAcc) : AccExtends acc acc :=
  fun _ r h => ⟨r, h, rfl, fun _ hx => hx⟩

theorem AccExtends_trans {a b c : PkgsAcc}
    (h₁ : AccExtends a b) (h₂ : AccExtends b c) : AccExtends a c := by
  intro k r hr
  obtain ⟨r', hr', hid, hsub⟩ := h₁ k r hr
  obtain ⟨r'', hr'', hid', hsub'⟩ := h₂ k r' hr'
  exact ⟨r'', hr'', hid.trans hid', fun x hx => hsub' x (hsub x hx)⟩

theorem alookup_ensure_other {k k' : String × String × String}
    (init : PkgQ) (acc : PkgsAcc) (h : k' ≠ k) :
    alookup (ensure_rec k init acc) k' = alookup acc k' := by
  unfold ensure_rec
  cases hl : alookup acc k with
  | some v => rfl
  | none =>
    rw [alookup_append]
    cases hk : alookup acc k' with
    | some v => rfl
    | none => simp [alookup, h]

theorem alookup_ensure_self (k : String × String × String)
    (init : PkgQ) (acc : PkgsAcc) :
    alookup (ensure_rec k init acc) k =
      some ((alookup acc k).getD init) := by
  unfold ensure_rec
  cases hl : alookup acc k with
  | some v => rw [hl]; rfl
  | none =>
    rw [alookup_append, hl]
    simp [alookup]

theorem alookup_modify_rec (k : String × String × String) (f : PkgQ → PkgQ)
    (acc : PkgsAcc) (k' : String × String × String) :
    alookup (modify_rec k f acc) k' =
      if k' = k then (alookup acc k').map f else alookup acc k' :=
  alookup_map_if acc k f k'

theorem mem_ensure_rec {p : (String × String × String) × PkgQ}
    {k : String × String × String} {init : PkgQ} {acc : PkgsAcc}
    (h : p ∈ ensure_rec k init acc) : p ∈ acc ∨ p = (k, init) := by
  unfold ensure_rec at h
  cases hl : alookup acc k with
  | some v => rw [hl] at h; exact Or.inl h
  | none =>
    rw [hl] at h
    rcases List.mem_append.mp h with h1 | h2
    · exact Or.inl h1
    · simp only [List.mem_singleton] at h2
      exact Or.inr h2

theorem mem_modify_rec {p : (String × String × String) × PkgQ}
    {k : String × String × String} {f : PkgQ → PkgQ} {acc : PkgsAcc}
    (h : p ∈ modify_rec k f acc) :
    ∃ q ∈ acc, p = q ∨ (q.1 = k ∧ p = (q.1, f q.2)) := by
  unfold modify_rec at h
  rw [List.mem_map] at h
  obtain ⟨q, hq, hpq⟩ := h
  by_cases hqk : q.1 = k
  · rw [if_pos hqk] at hpq
    exact ⟨q, hq, Or.inr ⟨hqk, hpq.symm⟩⟩
  · rw [if_neg hqk] at hpq
    exact ⟨q, hq, Or.inl hpq.symm⟩

/-- The common shape of the three per-package updates of `workload_pkgs`:
initialize a record under its own key if absent, then grow its tag sets.
Both accumulator invariants are preserved. -/
theorem touch_preserves (key : String × String × String) (init : PkgQ)
    (f : PkgQ → PkgQ) (acc : PkgsAcc)
    (hinit : (∀ x ∈ init.q_required_in, x ∈ init.q_in) ∧ init.id = key.2.2)
    (hf_inv : ∀ r, (∀ x ∈ r.q_required_in, x ∈ r.q_in) →
      ∀ x ∈ (f r).q_required_in, x ∈ (f r).q_in)
    (hf_id : ∀ r, (f r).id = r.id)
    (hf_ext : ∀ r, ∀ x ∈ r.q_required_in, x ∈ (f r).q_required_in)
    (hinv : ReqSubInv acc) :
    ReqSubInv (modify_rec key f (ensure_rec key init acc)) ∧
    AccExtends acc (modify_rec key f (ensure_rec key init acc)) := by
  have hens : ReqSubInv (ensure_rec key init acc) := by
    intro p hp
    rcases mem_ensure_rec hp with h1 | h2
    · exact hinv p h1
    · subst h2
      exact hinit
  constructor
  · intro p hp
    obtain ⟨q, hq, hcase⟩ := mem_modify_rec hp
    rcases hcase with heq | ⟨hqk, heq⟩
    · rw [heq]
      exact hens q hq
    · rw [heq]
      have hqinv := hens q hq
      refine ⟨hf_inv q.2 hqinv.1, ?_⟩
      show (f q.2).id = q.1.2.2
      rw [hf_id]
      exact hqinv.2
  · intro k r hr
    by_cases hk : k = key
    · subst hk
      rw [alookup_modify_rec, if_pos rfl, alookup_ensure_self, hr]
      refine ⟨f ((some r).getD init), rfl, ?_, ?_⟩
      · rw [hf_id]; rfl
      · intro x hx
        exact hf_ext _ x hx
    · rw [alookup_modify_rec, if_neg hk, alookup_ensure_other init acc hk, hr]
      exact ⟨r, rfl, rfl, fun _ hx => hx⟩

theorem workload_pkgs_env_step_inv
    (store : List (String × List (String × List (String × Pkg))))
    (repo_ids arches : List String) (w : Workload) (workload_id : String)
    (conf : WorkloadConf) (pkg_id : String) (acc acc' : PkgsAcc)
    (hrun : workload_pkgs_env_step store repo_ids arches w workload_id conf
      pkg_id acc = .ok acc')
    (hinv : ReqSubInv acc) :
    ReqSubInv acc' ∧ AccExtends acc acc' := by
  unfold workload_pkgs_env_step at hrun
  cases hlp : lookup_pkg store w.repo_id w.arch pkg_id with
  | none =>
    simp only [hlp] at hrun
    exact absurd hrun (by simp)
  | some pkg =>
    simp only [hlp] at hrun
    by_cases hb : w.repo_id ∈ repo_ids ∧ w.arch ∈ arches
    · rw [if_pos hb] at hrun
      cases hap : alookup conf.arch_packages w.arch with
      | none =>
        simp only [hap] at hrun
        exact absurd hrun (by simp)
      | some arch_pkgs =>
        simp only [hap] at hrun
        injection hrun with he
        rw [← he]
        refine touch_preserves _ _ _ _ ⟨by simp [init_pkgq], rfl⟩ ?_ ?_ ?_ hinv
        · intro r hr x hx
          dsimp only at hx ⊢
          by_cases hreq : pkg.name ∈ conf.packages ∨ pkg.name ∈ arch_pkgs
          · rw [if_pos hreq] at hx
            rcases mem_sadd.mp hx with rfl | hx2
            · exact self_mem_sadd _ _
            · exact subset_sadd _ _ _ (hr x hx2)
          · rw [if_neg hreq] at hx
            exact subset_sadd _ _ _ (hr x hx)
        · intro r; rfl
        · intro r x hx
          dsimp only
          by_cases hreq : pkg.name ∈ conf.packages ∨ pkg.name ∈ arch_pkgs
          · rw [if_pos hreq]
            exact subset_sadd _ _ _ hx
          · rw [if_neg hreq]
            exact hx
    · rw [if_neg hb] at hrun
      cases hrun

theorem workload_pkgs_added_step_inv
    (store : List (String × List (String × List (String × Pkg))))
    (repo_ids arches : List String) (w : Workload) (workload_id : String)
    (conf : WorkloadConf) (pkg_id : String) (acc acc' : PkgsAcc)
    (hrun : workload_pkgs_added_step store repo_ids arches w workload_id conf
      pkg_id acc = .ok acc')
    (hinv : ReqSubInv acc) :
    ReqSubInv acc' ∧ AccExtends acc acc' := by
  unfold workload_pkgs_added_step at hrun
  cases hlp : lookup_pkg store w.repo_id w.arch pkg_id with
  | none =>
    simp only [hlp] at hrun
    exact absurd hrun (by simp)
  | some pkg =>
    simp only [hlp] at hrun
    by_cases hb : w.repo_id ∈ repo_ids ∧ w.arch ∈ arches
    · rw [if_pos hb] at hrun
      cases hap : alookup conf.arch_packages w.arch with
      | none =>
        simp only [hap] at hrun
        exact absurd hrun (by simp)
      | some arch_pkgs =>
        simp only [hap] at hrun
        injection hrun with he
        rw [← he]
        refine touch_preserves _ _ _ _ ⟨by simp [init_pkgq], rfl⟩ ?_ ?_ ?_ hinv
        · intro r hr x hx
          dsimp only at hx ⊢
          by_cases hreq : pkg.name ∈ conf.packages ∨ pkg.name ∈ arch_pkgs
          · rw [if_pos hreq] at hx
            rcases mem_sadd.mp hx with rfl | hx2
            · exact self_mem_sadd _ _
            · exact subset_sadd _ _ _ (hr x hx2)
          · rw [if_neg hreq] at hx
            exact subset_sadd _ _ _ (hr x hx)
        · intro r; rfl
        · intro r x hx
          dsimp only
          by_cases hreq : pkg.name ∈ conf.packages ∨ pkg.name ∈ arch_pkgs
          · rw [if_pos hreq]
            exact subset_sadd _ _ _ hx
          · rw [if_neg hreq]
            exact hx
    · rw [if_neg hb] at hrun
      cases hrun

theorem workload_pkgs_placeholder_step_inv
    (repo_ids arches : List String) (w : Workload) (workload_id : String)
    (conf : WorkloadConf) (placeholder_id : String) (acc acc' : PkgsAcc)
    (hrun : workload_pkgs_placeholder_step repo_ids arches w workload_id conf
      placeholder_id acc = .ok acc')
    (hinv : ReqSubInv acc) :
    ReqSubInv acc' ∧ AccExtends acc acc' := by
  unfold workload_pkgs_placeholder_step at hrun
  cases hph : alookup conf.package_placeholders (pkg_id_to_name placeholder_id) with
  | none =>
    simp only [hph] at hrun
    exact absurd hrun (by simp)
  | some ph =>
    simp only [hph] at hrun
    by_cases hb : w.repo_id ∈ repo_ids ∧ w.arch ∈ arches
    · rw [if_pos hb] at hrun
      injection hrun with he
      rw [← he]
      refine touch_preserves _ _ _ _ ⟨by simp [init_pkgq_placeholder], rfl⟩
        ?_ ?_ ?_ hinv
      · intro r hr x hx
        dsimp only at hx ⊢
        rcases mem_sadd.mp hx with rfl | hx2
        · exact self_mem_sadd _ _
        · exact subset_sadd _ _ _ (hr x hx2)
      · intro r; rfl
      · intro r x hx
        dsimp only
        exact subset_sadd _ _ _ hx
    · rw [if_neg hb] at hrun
      cases hrun

/-- The placeholder step records the placeholder id as required in the
processing workload, and witnesses that the workload's bucket exists. -/
theorem workload_pkgs_placeholder_step_establishes
    (repo_ids arches : List String) (w : Workload) (workload_id : String)
    (conf : WorkloadConf) (placeholder_id : String) (acc acc' : PkgsAcc)
    (hrun : workload_pkgs_placeholder_step repo_ids arches w workload_id conf
      placeholder_id acc = .ok acc') :
    w.repo_id ∈ repo_ids ∧ w.arch ∈ arches ∧
    ∃ r, alookup acc' (w.repo_id, w.arch, placeholder_id) = some r ∧
      workload_id ∈ r.q_required_in := by
  unfold workload_pkgs_placeholder_step at hrun
  cases hph : alookup conf.package_placeholders (pkg_id_to_name placeholder_id) with
  | none =>
    simp only [hph] at hrun
    exact absurd hrun (by simp)
  | some ph =>
    simp only [hph] at hrun
    by_cases hb : w.repo_id ∈ repo_ids ∧ w.arch ∈ arches
    · rw [if_pos hb] at hrun
      injection hrun with he
      refine ⟨hb.1, hb.2, ?_⟩
      rw [← he]
      rw [alookup_modify_rec, if_pos rfl, alookup_ensure_self]
      refine ⟨_, rfl, ?_⟩
      dsimp only
      exact self_mem_sadd _ _
    · rw [if_neg hb] at hrun
      cases hrun

theorem workload_pkgs_env_loop_inv
    (store : List (String × List (String × List (String × Pkg))))
    (repo_ids arches : List String) (w : Workload) (workload_id : String)
    (conf : WorkloadConf) (pids : List String) (acc acc' : PkgsAcc)
    (hrun : workload_pkgs_env_loop store repo_ids arches w workload_id conf
      pids acc = .ok acc')
    (hinv : ReqSubInv acc) :
    ReqSubInv acc' ∧ AccExtends acc acc' := by
  induction pids generalizing acc with
  | nil =>
    simp only [workload_pkgs_env_loop] at hrun
    injection hrun with he
    rw [← he]
    exact ⟨hinv, AccExtends_refl acc⟩
  | cons pid rest ih =>
    simp only [workload_pkgs_env_loop] at hrun
    cases hstep : workload_pkgs_env_step store repo_ids arches w workload_id
        conf pid acc with
    | error e =>
      rw [hstep] at hrun
      exact absurd hrun (by simp)
    | ok acc1 =>
      rw [hstep] at hrun
      obtain ⟨h1, he1⟩ := workload_pkgs_env_step_inv store repo_ids arches w
        workload_id conf pid acc acc1 hstep hinv
      obtain ⟨h2, he2⟩ := ih acc1 hrun h1
      exact ⟨h2, AccExtends_trans he1 he2⟩

theorem workload_pkgs_added_loop_inv
    (store : List (String × List (String × List (String × Pkg))))
    (repo_ids arches : List String) (w : Workload) (workload_id : String)
    (conf : WorkloadConf) (pids : List String) (acc acc' : PkgsAcc)
    (hrun : workload_pkgs_added_loop store repo_ids arches w workload_id conf
      pids acc = .ok acc')
    (hinv : ReqSubInv acc) :
    ReqSubInv acc' ∧ AccExtends acc acc' := by
  induction pids generalizing acc with
  | nil =>
    simp only [workload_pkgs_added_loop] at hrun
    injection hrun with he
    rw [← he]
    exact ⟨hinv, AccExtends_refl acc⟩
  | cons pid rest ih =>
    simp only [workload_pkgs_added_loop] at hrun
    cases hstep : workload_pkgs_added_step store repo_ids arches w workload_id
        conf pid acc with
    | error e =>
      rw [hstep] at hrun
      exact absurd hrun (by simp)
    | ok acc1 =>
      rw [hstep] at hrun
      obtain ⟨h1, he1⟩ := workload_pkgs_added_step_inv store repo_ids arches w
        workload_id conf pid acc acc1 hstep hinv
      obtain ⟨h2, he2⟩ := ih acc1 hrun h1
      exact ⟨h2, AccExtends_trans he1 he2⟩

theorem workload_pkgs_placeholder_loop_inv
    (repo_ids arches : List String) (w : Workload) (workload_id : String)
    (conf : WorkloadConf) (pids : List String) (acc acc' : PkgsAcc)
    (hrun : workload_pkgs_placeholder_loop repo_ids arches w workload_id conf
      pids acc = .ok acc')
    (hinv : ReqSubInv acc) :
    ReqSubInv acc' ∧ AccExtends acc acc' := by
  induction pids generalizing acc with
  | nil =>
    simp only [workload_pkgs_placeholder_loop] at hrun
    injection hrun with he
    rw [← he]
    exact ⟨hinv, AccExtends_refl acc⟩
  | cons pid rest ih =>
    simp only [workload_pkgs_placeholder_loop] at hrun
    cases hstep : workload_pkgs_placeholder_step repo_ids arches w workload_id
        conf pid acc with
    | error e =>
      rw [hstep] at hrun
      exact absurd hrun (by simp)
    | ok acc1 =>
      rw [hstep] at hrun
      obtain ⟨h1, he1⟩ := workload_pkgs_placeholder_step_inv repo_ids arches w
        workload_id conf pid acc acc1 hstep hinv
      obtain ⟨h2, he2⟩ := ih acc1 hrun h1
      exact ⟨h2, AccExtends_trans he1 he2⟩

theorem workload_pkgs_placeholder_loop_establishes
    (repo_ids arches : List String) (w : Workload) (workload_id : String)
    (conf : WorkloadConf) (pids : List String) (acc acc' : PkgsAcc)
    (hrun : workload_pkgs_placeholder_loop repo_ids arches w workload_id conf
      pids acc = .ok acc')
    (hinv : ReqSubInv acc) :
    ∀ pid ∈ pids,
      w.repo_id ∈ repo_ids ∧ w.arch ∈ arches ∧
      ∃ r, alookup acc' (w.repo_id, w.arch, pid) = some r ∧
        workload_id ∈ r.q_required_in := by
  induction pids generalizing acc with
  | nil => intro pid hpid; cases hpid
  | cons pid0 rest ih =>
    simp only [workload_pkgs_placeholder_loop] at hrun
    cases hstep : workload_pkgs_placeholder_step repo_ids arches w workload_id
        conf pid0 acc with
    | error e =>
      rw [hstep] at hrun
      exact absurd hrun (by simp)
    | ok acc1 =>
      rw [hstep] at hrun
      obtain ⟨h1, he1⟩ := workload_pkgs_placeholder_step_inv repo_ids arches w
        workload_id conf pid0 acc acc1 hstep hinv
      intro pid hpid
      rcases List.mem_cons.mp hpid with rfl | hpid2
      · obtain ⟨hr, ha, r, hl, hm⟩ :=
          workload_pkgs_placeholder_step_establishes repo_ids arches w
            workload_id conf pid acc acc1 hstep
        obtain ⟨_, hext⟩ := workload_pkgs_placeholder_loop_inv repo_ids arches
          w workload_id conf rest acc1 acc' hrun h1
        obtain ⟨r', hl', _, hsub⟩ := hext _ r hl
        exact ⟨hr, ha, r', hl', hsub _ hm⟩
      · exact ih acc1 hrun h1 pid hpid2

theorem workload_pkgs_one_inv (ctx : PkgCtx) (repo_ids arches : List String)
    (workload_id : String) (acc acc' : PkgsAcc)
    (hrun : workload_pkgs_one ctx repo_ids arches workload_id acc = .ok acc')
    (hinv : ReqSubInv acc) :
    ReqSubInv acc' ∧ AccExtends acc acc' := by
  unfold workload_pkgs_one at hrun
  cases hw : alookup ctx.workloads_data workload_id with
  | none =>
    simp only [hw] at hrun
    exact absurd hrun (by simp)
  | some w =>
    simp only [hw] at hrun
    cases hc : alookup ctx.workload_confs w.workload_conf_id with
    | none =>
      simp only [hc] at hrun
      exact absurd hrun (by simp)
    | some conf =>
      simp only [hc] at hrun
      cases h1 : workload_pkgs_env_loop ctx.pkgs repo_ids arches w workload_id
          conf w.pkg_env_ids acc with
      | error e =>
        simp only [h1] at hrun
        exact absurd hrun (by simp)
      | ok acc1 =>
        simp only [h1] at hrun
        cases h2 : workload_pkgs_added_loop ctx.pkgs repo_ids arches w
            workload_id conf w.pkg_added_ids acc1 with
        | error e =>
          simp only [h2] at hrun
          exact absurd hrun (by simp)
        | ok acc2 =>
          simp only [h2] at hrun
          obtain ⟨i1, e1⟩ := workload_pkgs_env_loop_inv ctx.pkgs repo_ids
            arches w workload_id conf w.pkg_env_ids acc acc1 h1 hinv
          obtain ⟨i2, e2⟩ := workload_pkgs_added_loop_inv ctx.pkgs repo_ids
            arches w workload_id conf w.pkg_added_ids acc1 acc2 h2 i1
          obtain ⟨i3, e3⟩ := workload_pkgs_placeholder_loop_inv repo_ids arches
            w workload_id conf w.pkg_placeholder_ids acc2 acc' hrun i2
          exact ⟨i3, AccExtends_trans e1 (AccExtends_trans e2 e3)⟩

theorem workload_pkgs_one_establishes (ctx : PkgCtx)
    (repo_ids arches : List String) (workload_id : String) (acc acc' : PkgsAcc)
    (hrun : workload_pkgs_one ctx repo_ids arches workload_id acc = .ok acc')
    (hinv : ReqSubInv acc) :
    ∀ w, alookup ctx.workloads_data workload_id = some w →
      ∀ pid ∈ w.pkg_placeholder_ids,
        w.repo_id ∈ repo_ids ∧ w.arch ∈ arches ∧
        ∃ r, alookup acc' (w.repo_id, w.arch, pid) = some r ∧
          workload_id ∈ r.q_required_in := by
  intro w hw
  unfold workload_pkgs_one at hrun
  rw [hw] at hrun
  simp only [] at hrun
  cases hc : alookup ctx.workload_confs w.workload_conf_id with
  | none =>
    simp only [hc] at hrun
    exact absurd hrun (by simp)
  | some conf =>
    simp only [hc] at hrun
    cases h1 : workload_pkgs_env_loop ctx.pkgs repo_ids arches w workload_id
        conf w.pkg_env_ids acc with
    | error e =>
      simp only [h1] at hrun
      exact absurd hrun (by simp)
    | ok acc1 =>
      simp only [h1] at hrun
      cases h2 : workload_pkgs_added_loop ctx.pkgs repo_ids arches w
          workload_id conf w.pkg_added_ids acc1 with
      | error e =>
        simp only [h2] at hrun
        exact absurd hrun (by simp)
      | ok acc2 =>
        simp only [h2] at hrun
        obtain ⟨i1, _⟩ := workload_pkgs_env_loop_inv ctx.pkgs repo_ids arches
          w workload_id conf w.pkg_env_ids acc acc1 h1 hinv
        obtain ⟨i2, _⟩ := workload_pkgs_added_loop_inv ctx.pkgs repo_ids arches
          w workload_id conf w.pkg_added_ids acc1 acc2 h2 i1
        exact workload_pkgs_placeholder_loop_establishes repo_ids arches w
          workload_id conf w.pkg_placeholder_ids acc2 acc' hrun i2

theorem workload_pkgs_acc_inv (ctx : PkgCtx) (repo_ids arches : List String)
    (wids : List String) (acc acc' : PkgsAcc)
    (hrun : workload_pkgs_acc ctx repo_ids arches wids acc = .ok acc')
    (hinv : ReqSubInv acc) :
    ReqSubInv acc' ∧ AccExtends acc acc' := by
  induction wids generalizing acc with
  | nil =>
    simp only [workload_pkgs_acc] at hrun
    injection hrun with he
    rw [← he]
    exact ⟨hinv, AccExtends_refl acc⟩
  | cons wid rest ih =>
    simp only [workload_pkgs_acc] at hrun
    cases hstep : workload_pkgs_one ctx repo_ids arches wid acc with
    | error e =>
      rw [hstep] at hrun
      exact absurd hrun (by simp)
    | ok acc1 =>
      rw [hstep] at hrun
      obtain ⟨h1, he1⟩ := workload_pkgs_one_inv ctx repo_ids arches wid acc
        acc1 hstep hinv
      obtain ⟨h2, he2⟩ := ih acc1 hrun h1
      exact ⟨h2, AccExtends_trans he1 he2⟩

theorem workload_pkgs_acc_establishes (ctx : PkgCtx)
    (repo_ids arches : List String) (wids : List String) (acc acc' : PkgsAcc)
    (hrun : workload_pkgs_acc ctx repo_ids arches wids acc = .ok acc')
    (hinv : ReqSubInv acc) :
    ∀ wid ∈ wids, ∀ w, alookup ctx.workloads_data wid = some w →
      ∀ pid ∈ w.pkg_placeholder_ids,
        w.repo_id ∈ repo_ids ∧ w.arch ∈ arches ∧
        ∃ r, alookup acc' (w.repo_id, w.arch, pid) = some r ∧
          wid ∈ r.q_required_in := by
  induction wids generalizing acc with
  | nil => intro wid hwid; cases hwid
  | cons wid0 rest ih =>
    simp only [workload_pkgs_acc] at hrun
    cases hstep : workload_pkgs_one ctx repo_ids arches wid0 acc with
    | error e =>
      rw [hstep] at hrun
      exact absurd hrun (by simp)
    | ok acc1 =>
      rw [hstep] at hrun
      obtain ⟨h1, he1⟩ := workload_pkgs_one_inv ctx repo_ids arches wid0 acc
        acc1 hstep hinv
      intro wid hwid
      rcases List.mem_cons.mp hwid with rfl | hwid2
      · intro w hw pid hpid
        obtain ⟨hr, ha, r, hl, hm⟩ := workload_pkgs_one_establishes ctx
          repo_ids arches wid acc acc1 hstep hinv w hw pid hpid
        obtain ⟨_, hext⟩ := workload_pkgs_acc_inv ctx repo_ids arches rest
          acc1 acc' hrun h1
        obtain ⟨r', hl', _, hsub⟩ := hext _ r hl
        exact ⟨hr, ha, r', hl', hsub _ hm⟩
      · exact ih acc1 hrun h1 wid hwid2

theorem mem_flatten_pkgs {repo_ids arches : List String} {acc : PkgsAcc}
    {r : PkgQ} :
    r ∈ flatten_pkgs repo_ids arches acc ↔
      ∃ p ∈ acc, p.2 = r ∧ p.1.1 ∈ repo_ids ∧ p.1.2.1 ∈ arches := by
  unfold flatten_pkgs
  simp only [List.mem_flatMap, List.mem_map, List.mem_filter,
    Bool.and_eq_true, decide_eq_true_eq]
  constructor
  · rintro ⟨a, ha, b, hb, p, ⟨hp, rfl, rfl⟩, hpr⟩
    exact ⟨p, hp, hpr, ha, hb⟩
  · rintro ⟨p, hp, hpr, ha, hb⟩
    exact ⟨p.1.1, ha, p.1.2.1, hb, p, ⟨hp, rfl, rfl⟩, hpr⟩

/-- C3: every record returned by the workload package aggregation query
has `q_required_in ⊆ q_in`, and every placeholder package id of every
matching workload instance is tagged required in that instance. -/
theorem required_subset_present (qctx : QueryCtx) (ctx : PkgCtx)
    (wci eci ri ar : Option String) (lst : List PkgQ)
    (hok : workload_pkgs qctx ctx wci eci ri ar none = .ok (.recs lst)) :
    (∀ r ∈ lst, ∀ x ∈ r.q_required_in, x ∈ r.q_in) ∧
    (∀ wid ∈ pySorted (workloads_matching qctx wci eci ri ar none),
      ∀ w, alookup ctx.workloads_data wid = some w →
        ∀ pid ∈ w.pkg_placeholder_ids,
          ∃ r ∈ lst, r.id = pid ∧ wid ∈ r.q_required_in) := by
  unfold workload_pkgs at hok
  simp only [pyTruthyStr] at hok
  cases hacc : workload_pkgs_acc ctx
      (pySorted (workloads_matching qctx wci eci ri ar (some "repo_ids")))
      (pySorted (workloads_matching qctx wci eci ri ar (some "arches")))
      (pySorted (workloads_matching qctx wci eci ri ar none)) [] with
  | error e =>
    simp only [hacc] at hok
    exact absurd hok (by simp)
  | ok acc =>
    simp only [hacc] at hok
    injection hok with he
    injection he with he2
    have hinv0 : ReqSubInv ([] : PkgsAcc) := fun p hp => absurd hp (by simp)
    have hinv := (workload_pkgs_acc_inv ctx _ _ _ _ _ hacc hinv0).1
    have hmemlst : ∀ r, r ∈ lst ↔ r ∈ flatten_pkgs
        (pySorted (workloads_matching qctx wci eci ri ar (some "repo_ids")))
        (pySorted (workloads_matching qctx wci eci ri ar (some "arches")))
        acc := by
      intro r
      rw [← he2]
      exact (List.perm_insertionSort _ _).mem_iff
    constructor
    · intro r hr x hx
      obtain ⟨p, hp, hpr, _, _⟩ := mem_flatten_pkgs.mp ((hmemlst r).mp hr)
      have := (hinv p hp).1
      rw [hpr] at this
      exact this x hx
    · intro wid hwid w hw pid hpid
      obtain ⟨hr, ha, r, hl, hm⟩ := workload_pkgs_acc_establishes ctx _ _ _ _ _
        hacc hinv0 wid hwid w hw pid hpid
      have hmem : ((w.repo_id, w.arch, pid), r) ∈ acc := alookup_some_mem hl
      have hid : r.id = pid := (hinv _ hmem).2
      refine ⟨r, ?_, hid, hm⟩
      rw [hmemlst]
      exact mem_flatten_pkgs.mpr ⟨_, hmem, rfl, hr, ha⟩

theorem collect_proj_source_nvr {l : List PkgQ} (h : l ≠ []) :
    collect_proj "source_nvr" l = .error "KeyError: sourcerpm" := by
  cases l with
  | nil => exact absurd rfl h
  | cons p rest => rfl

/-- C10: `source_nvr` is accepted by `workload_pkgs` argument validation,
but the records the query builds carry a `source_name` field and never a
`sourcerpm` field, which the `source_nvr` projection reads — so any
argument combination matching at least one workload instance with at
least one package raises `KeyError`. -/
theorem source_nvr_keyerror (qctx : QueryCtx) (ctx : PkgCtx)
    (wci eci ri ar : Option String) (acc : PkgsAcc)
    (hacc : workload_pkgs_acc ctx
      (pySorted (workloads_matching qctx wci eci ri ar (some "repo_ids")))
      (pySorted (workloads_matching qctx wci eci ri ar (some "arches")))
      (pySorted (workloads_matching qctx wci eci ri ar none)) [] = .ok acc)
    (hne : flatten_pkgs
      (pySorted (workloads_matching qctx wci eci ri ar (some "repo_ids")))
      (pySorted (workloads_matching qctx wci eci ri ar (some "arches")))
      acc ≠ []) :
    "source_nvr" ∈ ["ids", "binary_names", "source_nvr", "source_names"] ∧
    workload_pkgs qctx ctx wci eci ri ar (some "source_nvr") =
      .error "KeyError: sourcerpm" := by
  refine ⟨by simp, ?_⟩
  unfold workload_pkgs
  simp only [hacc, Option.getD_some]
  simp [collect_proj_source_nvr hne, pyTruthyStr]

/-- Witness for C3 on the concrete store `qctxW`/`ctxW`. -/
theorem required_subset_present_witness :
    lstW.all (fun r => r.q_required_in.all (fun x => decide (x ∈ r.q_in)))
      = true := by
  have h :=
    (required_subset_present qctxW ctxW none none none none lstW
      (by decide)).1
  rw [List.all_eq_true]
  intro r hr
  rw [List.all_eq_true]
  intro x hx
  exact decide_eq_true (h r hr x hx)

/-- Witness for C10 on the concrete store `qctxW`/`ctxW`. -/
theorem source_nvr_keyerror_witness :
    workload_pkgs qctxW ctxW none none none none (some "source_nvr") =
      .error "KeyError: sourcerpm" :=
  (source_nvr_keyerror qctxW ctxW none none none none accW (by decide)
    (by decide)).2

/-- C6: every InvalidArgument contract violation raises instead of
returning: an unknown projection key in the workload and environment
queries, a composite id whose colon-separated part count is neither 3 nor
4 in the id-based query forms, and a layer index outside 1-9 in the
ownership engine's internal layer steps. -/
theorem invalid_argument_raises (ctx : QueryCtx)
    (wci eci ri ar : Option String) (s : String) (hs : s ≠ "")
    (hws : s ∉ ["workload_conf_ids", "env_conf_ids", "repo_ids", "arches"])
    (hes : s ∉ ["env_conf_ids", "repo_ids", "arches"])
    (id : String) (oc : Option String)
    (hlen3 : (split_colon id).length ≠ 3)
    (hlen4 : (split_colon id).length ≠ 4)
    (layer : Nat) (hlayer : ¬(1 ≤ layer ∧ layer < 10))
    (bpkgs : List (String × BuildrootPkg)) (bonly bsrpms : List String)
    (entries : List (String × LayerPkgEntry))
    (tm : List (String × List String))
    (pentries : List (String × LayerPkgEntry))
    (srpms : List (String × SrpmOwnK)) :
    (∃ e, workloads ctx wci eci ri ar (some s) = .error e) ∧
    (∃ e, envs ctx eci ri ar (some s) = .error e) ∧
    (∃ e, workloads_id ctx id oc = .error e) ∧
    (∃ e, envs_id ctx id oc = .error e) ∧
    (∃ e, process_layer_pkg_entries layer bpkgs bonly bsrpms entries
      = .error e) ∧
    (∃ e, process_layer_srpm_entries layer tm pentries srpms = .error e) := by
  have ht : pyTruthyStr (some s) = true := by
    simp [pyTruthyStr]
    exact hs
  refine ⟨⟨"ValueError: output_change", ?_⟩,
    ⟨"ValueError: output_change", ?_⟩,
    ⟨"That seems to be an invalid ID!", ?_⟩,
    ⟨"That seems to be an invalid ID!", ?_⟩,
    ⟨"ValueError", ?_⟩, ⟨"ValueError", ?_⟩⟩
  · simp [workloads, ht, hws]
  · simp [envs, ht, hes]
  · simp [workloads_id, hlen3, hlen4]
  · simp [envs_id, hlen3, hlen4]
  · simp [process_layer_pkg_entries, hlayer]
  · simp [process_layer_srpm_entries, hlayer]

/-- Witness for C6 with the projection key `bogus`, the two-part id
`a:b`, and layer index 0. -/
theorem invalid_argument_raises_witness :
    ∃ e, process_layer_pkg_entries 0 [] [] [] [] = .error e :=
  (invalid_argument_raises ⟨[], [], [], [], [], []⟩ none none none none
    "bogus" (by decide) (by decide) (by decide) "a:b" none (by decide)
    (by decide) 0 (by decide) [] [] [] [] [] [] []).2.2.2.2.1

/-! ## Layer-zero placement lemmas (C7) -/

theorem alookup_append_isSome {α β : Type} [DecidableEq α]
    {l : List (α × β)} {k : α} (m : List (α × β))
    (h : (alookup l k).isSome) : (alookup (l ++ m) k).isSome := by
  rw [alookup_append]
  cases hl : alookup l k with
  | none => rw [hl] at h; cases h
  | some v => simp

theorem alookup_append_self_isSome {α β : Type} [DecidableEq α]
    (l : List (α × β)) (k : α) (v : β) :
    (alookup (l ++ [(k, v)]) k).isSome := by
  rw [alookup_append]
  cases hl : alookup l k with
  | none => simp [alookup]
  | some w => simp

theorem force_remainder_preserves (rem : List String)
    (lvl9 : List (String × List OPair)) (k : String)
    (h : (alookup lvl9 k).isSome) :
    (alookup (force_remainder lvl9 rem) k).isSome := by
  induction rem generalizing lvl9 with
  | nil => exact h
  | cons p rest ih =>
    simp only [force_remainder]
    split
    · exact ih lvl9 h
    · exact ih _ (alookup_append_isSome _ h)

theorem force_remainder_places (rem : List String)
    (lvl9 : List (String × List OPair)) (p : String) (hp : p ∈ rem) :
    (alookup (force_remainder lvl9 rem) p).isSome := by
  induction rem generalizing lvl9 with
  | nil => cases hp
  | cons q rest ih =>
    simp only [force_remainder]
    rcases List.mem_cons.mp hp with rfl | hp2
    · split
      · exact force_remainder_preserves rest lvl9 p (by assumption)
      · exact force_remainder_preserves rest _ p
          (alookup_append_self_isSome lvl9 p [])
    · split
      · exact ih lvl9 hp2
      · exact ih _ hp2

theorem scan_pkgs_mono (workload_id workload_conf_id : String)
    (pkgs : List PkgQ) (entries : List (String × PkgEntry0))
    (lvl0 : List (String × List OPair)) (remaining : List String)
    (entries' : List (String × PkgEntry0))
    (lvl0' : List (String × List OPair)) (rem' : List String)
    (hrun : scan_pkgs workload_id workload_conf_id pkgs entries lvl0 remaining
      = .ok (entries', lvl0', rem'))
    (n : String) (h : (alookup lvl0 n).isSome ∨ n ∈ remaining) :
    (alookup lvl0' n).isSome ∨ n ∈ rem' := by
  induction pkgs generalizing entries lvl0 remaining with
  | nil =>
    simp only [scan_pkgs] at hrun
    injection hrun with he
    injection he with h1 h2
    injection h2 with h2a h2b
    rw [← h2a, ← h2b]
    exact h
  | cons pkg rest ih =>
    simp only [scan_pkgs] at hrun
    cases hlk : alookup entries pkg.name with
    | none =>
      simp only [hlk] at hrun
      exact absurd hrun (by simp)
    | some e =>
      simp only [hlk] at hrun
      by_cases hreq : workload_id ∈ pkg.q_required_in
      · rw [if_pos hreq] at hrun
        refine ih _ _ _ hrun ?_
        by_cases hn : n = pkg.name
        · subst hn
          left
          cases hl0 : alookup lvl0 pkg.name with
          | some v => simp [alookup_map_if, hl0]
          | none =>
            simp only [Option.isSome_none, Bool.false_eq_true, if_false]
            exact alookup_append_self_isSome lvl0 pkg.name _
        · rcases h with hkey | hmem
          · left
            cases hl0 : alookup lvl0 pkg.name with
            | some v =>
              simp only [Option.isSome_some, if_true, alookup_map_if, hn,
                if_false]
              exact hkey
            | none =>
              simp only [Option.isSome_none, Bool.false_eq_true, if_false]
              exact alookup_append_isSome _ hkey
          · right
            rw [List.mem_filter]
            refine ⟨subset_sadd _ _ _ hmem, by simp [hn]⟩
      · rw [if_neg hreq] at hrun
        refine ih _ _ _ hrun ?_
        rcases h with hkey | hmem
        · left; exact hkey
        · right; exact subset_sadd _ _ _ hmem

theorem scan_pkgs_covers (workload_id workload_conf_id : String)
    (pkgs : List PkgQ) (entries : List (String × PkgEntry0))
    (lvl0 : List (String × List OPair)) (remaining : List String)
    (entries' : List (String × PkgEntry0))
    (lvl0' : List (String × List OPair)) (rem' : List String)
    (hrun : scan_pkgs workload_id workload_conf_id pkgs entries lvl0 remaining
      = .ok (entries', lvl0', rem')) :
    ∀ pkg ∈ pkgs, (alookup lvl0' pkg.name).isSome ∨ pkg.name ∈ rem' := by
  induction pkgs generalizing entries lvl0 remaining with
  | nil => intro pkg hpkg; cases hpkg
  | cons pkg0 rest ih =>
    simp only [scan_pkgs] at hrun
    cases hlk : alookup entries pkg0.name with
    | none =>
      simp only [hlk] at hrun
      exact absurd hrun (by simp)
    | some e =>
      simp only [hlk] at hrun
      intro pkg hpkg
      rcases List.mem_cons.mp hpkg with rfl | hpkg2
      · by_cases hreq : workload_id ∈ pkg.q_required_in
        · rw [if_pos hreq] at hrun
          refine scan_pkgs_mono _ _ _ _ _ _ _ _ _ hrun pkg.name ?_
          left
          cases hl0 : alookup lvl0 pkg.name with
          | some v => simp [alookup_map_if, hl0]
          | none =>
            simp only [Option.isSome_none, Bool.false_eq_true, if_false]
            exact alookup_append_self_isSome lvl0 pkg.name _
        · rw [if_neg hreq] at hrun
          refine scan_pkgs_mono _ _ _ _ _ _ _ _ _ hrun pkg.name ?_
          right
          exact self_mem_sadd _ _
      · by_cases hreq : workload_id ∈ pkg0.q_required_in
        · rw [if_pos hreq] at hrun
          exact ih _ _ _ hrun pkg hpkg2
        · rw [if_neg hreq] at hrun
          exact ih _ _ _ hrun pkg hpkg2

theorem bfs_levels_disposition (rel : List (String × List String))
    (n : Nat) (prev : List (String × List OPair)) (remaining : List String)
    (lvls : List (List (String × List OPair))) (rem' : List String)
    (hrun : bfs_levels rel n prev remaining = .ok (lvls, rem')) :
    ∀ p ∈ remaining, p ∈ rem' ∨ ∃ l ∈ lvls, (alookup l p).isSome := by
  induction n generalizing prev remaining lvls rem' with
  | zero =>
    simp only [bfs_levels] at hrun
    injection hrun with he
    injection he with h1 h2
    rw [← h1, ← h2]
    intro p hp
    exact Or.inl hp
  | succ n ih =>
    simp only [bfs_levels] at hrun
    cases hlvl : bfs_level rel (prev.map Prod.fst) remaining with
    | error e =>
      simp only [hlvl] at hrun
      exact absurd hrun (by simp)
    | ok lvl =>
      simp only [hlvl] at hrun
      cases hrest : bfs_levels rel n lvl
          (remaining.filter (fun p => decide ((alookup lvl p).isNone))) with
      | error e =>
        simp only [hrest] at hrun
        exact absurd hrun (by simp)
      | ok pr =>
        obtain ⟨rest, rem⟩ := pr
        simp only [hrest] at hrun
        injection hrun with he
        injection he with h1 h2
        rw [← h1, ← h2]
        intro p hp
        cases hpl : alookup lvl p with
        | some v =>
          right
          exact ⟨lvl, List.mem_cons_self _ _, by rw [hpl]; simp⟩
        | none =>
          have hp2 : p ∈ remaining.filter
              (fun p => decide ((alookup lvl p).isNone)) := by
            rw [List.mem_filter]
            exact ⟨hp, by simp [hpl]⟩
          rcases ih lvl _ rest rem hrest p hp2 with h | ⟨l, hl, hk⟩
          · exact Or.inl h
          · exact Or.inr ⟨l, List.mem_cons_of_mem _ hl, hk⟩

theorem set_last_exists_mono {α : Type} (f : α → α) (P : α → Prop)
    (hf : ∀ a, P a → P (f a)) :
    ∀ (xs : List α) (x : α), x ∈ xs → P x → ∃ y ∈ set_last f xs, P y := by
  intro xs
  induction xs with
  | nil => intro x hx; cases hx
  | cons a rest ih =>
    intro x hx hP
    cases rest with
    | nil =>
      simp only [List.mem_singleton] at hx
      subst hx
      exact ⟨f x, List.mem_singleton.mpr rfl, hf x hP⟩
    | cons b rest2 =>
      rcases List.mem_cons.mp hx with rfl | hx2
      · exact ⟨x, List.mem_cons_self _ _, hP⟩
      · obtain ⟨y, hy, hyP⟩ := ih x hx2 hP
        exact ⟨y, List.mem_cons_of_mem _ hy, hyP⟩

theorem set_last_last {α : Type} (f : α → α) :
    ∀ (x : α) (xs : List α), ∃ z, f z ∈ set_last f (x :: xs) := by
  intro x xs
  induction xs generalizing x with
  | nil => exact ⟨x, List.mem_singleton.mpr rfl⟩
  | cons y rest ih =>
    obtain ⟨z, hz⟩ := ih y
    exact ⟨z, List.mem_cons_of_mem _ hz⟩

/-- C7 (amended): after the layer-0 expansion, no package of a workload
is left unassigned — a package not placed at levels 0-8 or by the
breadth-first search at level 9 is forced into the level-9 map (with an
empty requiring-pair set), so every package of the workload is recorded
at some level. -/
theorem every_pkg_recorded (workload_id workload_conf_id : String)
    (pkgs : List PkgQ) (rel : List (String × List String))
    (entries entries' : List (String × PkgEntry0))
    (lvls : List (List (String × List OPair)))
    (hrun : process_layer_zero_workload workload_id workload_conf_id pkgs rel
      entries = .ok (entries', lvls)) :
    ∀ pkg ∈ pkgs, ∃ l ∈ lvls, (alookup l pkg.name).isSome := by
  unfold process_layer_zero_workload at hrun
  cases hscan : scan_pkgs workload_id workload_conf_id pkgs entries [] [] with
  | error e =>
    simp only [hscan] at hrun
    exact absurd hrun (by simp)
  | ok tr =>
    obtain ⟨entries1, lvl0, remaining⟩ := tr
    simp only [hscan] at hrun
    cases hbfs : bfs_levels rel 9 lvl0 remaining with
    | error e =>
      simp only [hbfs] at hrun
      exact absurd hrun (by simp)
    | ok pr =>
      obtain ⟨lvlsB, remaining9⟩ := pr
      simp only [hbfs] at hrun
      injection hrun with he
      injection he with h1 h2
      intro pkg hpkg
      rw [← h2]
      have hP := force_remainder_preserves remaining9
      rcases scan_pkgs_covers _ _ _ _ _ _ _ _ _ hscan pkg hpkg with hkey | hrem
      · exact set_last_exists_mono _ (fun l => (alookup l pkg.name).isSome)
          (fun a ha => hP a pkg.name ha) (lvl0 :: lvlsB) lvl0
          (List.mem_cons_self _ _) hkey
      · rcases bfs_levels_disposition rel 9 lvl0 remaining lvlsB remaining9
            hbfs pkg.name hrem with hrem9 | ⟨l, hl, hk⟩
        · obtain ⟨z, hz⟩ := set_last_last
            (fun l9 => force_remainder l9 remaining9) lvl0 lvlsB
          exact ⟨_, hz, force_remainder_places remaining9 z pkg.name hrem9⟩
        · exact set_last_exists_mono _ (fun l => (alookup l pkg.name).isSome)
            (fun a ha => hP a pkg.name ha) (lvl0 :: lvlsB) l
            (List.mem_cons_of_mem _ hl) hk

/-- Witness for C7 (amended) on the concrete two-package workload. -/
theorem every_pkg_recorded_witness :
    ∃ entries' lvls,
      process_layer_zero_workload "wid" "w1" [c7A, c7B] c7rel
        (init_pkg_entries0 ["pkgA", "pkgB"]) = .ok (entries', lvls) ∧
      ∀ pkg ∈ [c7A, c7B], ∃ l ∈ lvls, (alookup l pkg.name).isSome := by
  refine ⟨_, _, rfl, ?_⟩
  exact every_pkg_recorded "wid" "w1" [c7A, c7B] c7rel
    (init_pkg_entries0 ["pkgA", "pkgB"]) _ _ rfl

/-- C7 counterexample: `pkgB` is required by no workload and reachable
from no required package, so the claim says it ends recorded at no level
with no ownership evidence; the code instead forces it into the level-9
map (with an empty pair set) and the roll-up then creates a level-9
ownership entry for the workload's maintainer on `pkgB`'s source
component. -/
theorem unreachable_pkg_recorded_counterexample :
    ∃ entries' lvls,
      process_layer_zero_workload "wid" "w1" [c7A, c7B] c7rel
        (init_pkg_entries0 ["pkgA", "pkgB"]) = .ok (entries', lvls) ∧
      alookup (lvls.getD 9 []) "pkgB" = some [] ∧
      ∃ srpms',
        process_layer_zero_srpm_entries [("w1", c7conf)] entries'
          (init_srpm_entries0 ["a-src", "b-src"]) = .ok srpms' ∧
        ((alookup srpms' "b-src").map (fun own =>
          ((alookup own 9).getD []).map Prod.fst)) = some ["alice"] := by
  refine ⟨_, _, rfl, by decide, _, rfl, by decide⟩

/-! ## Pair-count lemmas (C8) -/

theorem alookup_aset {α β : Type} [DecidableEq α] (l : List (α × β))
    (k : α) (v : β) (j : α) :
    alookup (aset l k v) j = if j = k then some v else alookup l j := by
  unfold aset
  cases hlk : alookup l k with
  | some w =>
    rw [alookup_map_const]
    by_cases h : j = k
    · subst h
      simp [hlk]
    · simp [h]
  | none =>
    rw [alookup_append]
    by_cases h : j = k
    · subst h
      simp [hlk, alookup]
    · cases hlj : alookup l j with
      | some w => simp [hlj, h]
      | none => simp [hlj, alookup, h]

theorem mem_map_if_cases {α β : Type} [DecidableEq α] {l : List (α × β)}
    {k : α} {f : β → β} {q : α × β}
    (h : q ∈ l.map (fun p => if p.1 = k then (p.1, f p.2) else p)) :
    q ∈ l ∨ ∃ p ∈ l, p.1 = k ∧ q = (k, f p.2) := by
  rcases List.mem_map.mp h with ⟨p, hp, hpq⟩
  by_cases hk : p.1 = k
  · right
    refine ⟨p, hp, hk, ?_⟩
    rw [← hpq]
    simp [hk]
  · left
    rw [← hpq]
    simp only [hk, if_false]
    exact hp

theorem mem_aset_cases {α β : Type} [DecidableEq α] {l : List (α × β)}
    {k : α} {v : β} {q : α × β} (h : q ∈ aset l k v) :
    q ∈ l ∨ q.2 = v := by
  unfold aset at h
  cases hlk : alookup l k with
  | some w =>
    simp only [hlk] at h
    rcases mem_map_if_cases (f := fun _ => v) h with h1 | ⟨p, _, _, hq⟩
    · exact Or.inl h1
    · right
      rw [hq]
  | none =>
    simp only [hlk] at h
    rcases List.mem_append.mp h with h1 | h1
    · exact Or.inl h1
    · right
      simp only [List.mem_singleton] at h1
      rw [h1]

theorem own_update_ok (o : OwnEntry0) (wcid pkg : String)
    (pairs : List OPair) (h : o.pkg_names.Nodup) :
    (own_update o wcid pkg pairs).pkg_count
      = (own_update o wcid pkg pairs).pkg_names.length ∧
    (own_update o wcid pkg pairs).pkg_names.Nodup :=
  ⟨rfl, nodup_sunion h⟩

theorem srpm_add_preserves (srpms : List (String × SrpmOwn0))
    (source : String) (lvl : Nat) (m wcid pkg : String)
    (pairs : List OPair) (srpms1 : List (String × SrpmOwn0))
    (hinv : PairCountInv srpms)
    (hrun : srpm_add srpms source lvl m wcid pkg pairs = .ok srpms1) :
    PairCountInv srpms1 := by
  unfold srpm_add at hrun
  cases hso : alookup srpms source with
  | none =>
    simp only [hso] at hrun
    exact absurd hrun (by simp)
  | some own =>
    simp only [hso] at hrun
    injection hrun with he
    rw [← he]
    intro p hp q hq r hr
    rcases mem_aset_cases hp with hpl | hpv
    · exact hinv p hpl q hq r hr
    · rw [hpv] at hq
      rcases mem_map_if_cases (f := fun b => (if (alookup b m).isSome then b else b ++ [(m, ({ workloads := [], pkg_names := [], pkg_count := 0 } : OwnEntry0))]).map (fun q => if q.1 = m then (q.1, own_update q.2 wcid pkg pairs) else q)) hq with hql | ⟨b, hb, _, hqeq⟩
      · exact hinv (source, own) (alookup_some_mem hso) q hql r hr
      · rw [hqeq] at hr
        dsimp only at hr
        have hbinv : ∀ c ∈ (if (alookup b.2 m).isSome then b.2 else b.2 ++ [(m, ({ workloads := [], pkg_names := [], pkg_count := 0 } : OwnEntry0))]),
            c.2.pkg_count = c.2.pkg_names.length ∧ c.2.pkg_names.Nodup := by
          intro c hc
          by_cases hm : (alookup b.2 m).isSome
          · rw [if_pos hm] at hc
            exact hinv (source, own) (alookup_some_mem hso) b hb c hc
          · rw [if_neg hm] at hc
            rcases List.mem_append.mp hc with h1 | h1
            · exact hinv (source, own) (alookup_some_mem hso) b hb c h1
            · simp only [List.mem_singleton] at h1
              rw [h1]
              exact ⟨rfl, List.nodup_nil⟩
        rcases mem_map_if_cases (f := fun o => own_update o wcid pkg pairs) hr with hrl | ⟨c, hc, _, hreq⟩
        · exact hbinv r hrl
        · rw [hreq]
          exact own_update_ok c.2 wcid pkg pairs (hbinv c hc).2

theorem srpm_wq_loop_preserves (confs : List (String × WorkloadConf))
    (pkg source : String) (lvl : Nat) (wq : List (String × List OPair))
    (srpms srpms1 : List (String × SrpmOwn0)) (hinv : PairCountInv srpms)
    (hrun : srpm_wq_loop confs pkg source lvl wq srpms = .ok srpms1) :
    PairCountInv srpms1 := by
  induction wq generalizing srpms with
  | nil =>
    simp only [srpm_wq_loop] at hrun
    injection hrun with he
    rw [← he]
    exact hinv
  | cons x rest ih =>
    obtain ⟨wcid, pairs⟩ := x
    simp only [srpm_wq_loop] at hrun
    cases hc : alookup confs wcid with
    | none =>
      simp only [hc] at hrun
      exact absurd hrun (by simp)
    | some conf =>
      simp only [hc] at hrun
      cases ha : srpm_add srpms source lvl conf.maintainer wcid pkg pairs with
      | error e =>
        simp only [ha] at hrun
        exact absurd hrun (by simp)
      | ok s1 =>
        simp only [ha] at hrun
        exact ih s1
          (srpm_add_preserves srpms source lvl conf.maintainer wcid pkg
            pairs s1 hinv ha) hrun

theorem srpm_levels_loop_preserves (confs : List (String × WorkloadConf))
    (pkg source : String) (levels : List (Nat × List (String × List OPair)))
    (srpms srpms1 : List (String × SrpmOwn0)) (hinv : PairCountInv srpms)
    (hrun : srpm_levels_loop confs pkg source levels srpms = .ok srpms1) :
    PairCountInv srpms1 := by
  induction levels generalizing srpms with
  | nil =>
    simp only [srpm_levels_loop] at hrun
    injection hrun with he
    rw [← he]
    exact hinv
  | cons x rest ih =>
    obtain ⟨lvl, wq⟩ := x
    simp only [srpm_levels_loop] at hrun
    cases hw : srpm_wq_loop confs pkg source lvl wq srpms with
    | error e =>
      simp only [hw] at hrun
      exact absurd hrun (by simp)
    | ok s1 =>
      simp only [hw] at hrun
      exact ih s1
        (srpm_wq_loop_preserves confs pkg source lvl wq srpms s1 hinv hw) hrun

theorem process_layer_zero_srpm_entries_preserves
    (confs : List (String × WorkloadConf))
    (entries : List (String × PkgEntry0))
    (srpms srpms1 : List (String × SrpmOwn0)) (hinv : PairCountInv srpms)
    (hrun : process_layer_zero_srpm_entries confs entries srpms = .ok srpms1) :
    PairCountInv srpms1 := by
  induction entries generalizing srpms with
  | nil =>
    simp only [process_layer_zero_srpm_entries] at hrun
    injection hrun with he
    rw [← he]
    exact hinv
  | cons x rest ih =>
    obtain ⟨pkg, e⟩ := x
    simp only [process_layer_zero_srpm_entries] at hrun
    cases hsn : e.source_name with
    | none =>
      simp only [hsn] at hrun
      exact ih srpms hinv hrun
    | some s =>
      simp only [hsn] at hrun
      cases hl : srpm_levels_loop confs pkg s e.levels srpms with
      | error e2 =>
        simp only [hl] at hrun
        exact absurd hrun (by simp)
      | ok s1 =>
        simp only [hl] at hrun
        exact ih s1
          (srpm_levels_loop_preserves confs pkg s e.levels srpms s1 hinv hl)
          hrun

theorem layer_srpm_add_count (srpms : List (String × SrpmOwnK))
    (source : String) (lvl : Nat) (m bsrpm pkg : String)
    (srpms1 : List (String × SrpmOwnK))
    (hlvl : ((alookup srpms source).bind (fun own => alookup own lvl)).isSome)
    (hrun : layer_srpm_add srpms source lvl m bsrpm pkg = .ok srpms1) :
    triple_count srpms1 source lvl m = triple_count srpms source lvl m + 1 ∧
    ∀ s' lvl' m', s' ≠ source ∨ lvl' ≠ lvl ∨ m' ≠ m →
      triple_count srpms1 s' lvl' m' = triple_count srpms s' lvl' m' := by
  unfold layer_srpm_add at hrun
  cases hso : alookup srpms source with
  | none =>
    simp only [hso] at hrun
    exact absurd hrun (by simp)
  | some own =>
    simp only [hso] at hrun
    rw [hso] at hlvl
    simp only [Option.some_bind] at hlvl
    cases hol : alookup own lvl with
    | none =>
      rw [hol] at hlvl
      cases hlvl
    | some ms =>
      injection hrun with he
      rw [← he]
      constructor
      · simp only [triple_count]
        rw [alookup_aset, if_pos rfl, hso]
        simp only [Option.some_bind]
        rw [alookup_map_if own lvl (fun b => (if (alookup b m).isSome then b else b ++ [(m, ({ build_source_names := [], pkg_count := 0 } : LayerOwnEntry))]).map (fun q => if q.1 = m then (q.1, layer_own_update q.2 bsrpm pkg) else q)) lvl]
        rw [if_pos rfl, hol]
        simp only [Option.map_some', Option.some_bind]
        rw [alookup_map_if _ m (fun o => layer_own_update o bsrpm pkg) m]
        rw [if_pos rfl]
        by_cases hm : (alookup ms m).isSome
        · obtain ⟨o, ho⟩ := Option.isSome_iff_exists.mp hm
          rw [if_pos hm, ho]
          rfl
        · rw [if_neg hm]
          rw [Option.not_isSome_iff_eq_none] at hm
          rw [alookup_append, hm]
          simp only [alookup, if_pos rfl]
          rfl
      · intro s' lvl' m' hne
        simp only [triple_count]
        rw [alookup_aset]
        by_cases hs : s' = source
        · subst hs
          rw [if_pos rfl, hso]
          simp only [Option.some_bind]
          rw [alookup_map_if own lvl (fun b => (if (alookup b m).isSome then b else b ++ [(m, ({ build_source_names := [], pkg_count := 0 } : LayerOwnEntry))]).map (fun q => if q.1 = m then (q.1, layer_own_update q.2 bsrpm pkg) else q)) lvl']
          by_cases hl : lvl' = lvl
          · subst hl
            rw [if_pos rfl, hol]
            simp only [Option.map_some', Option.some_bind]
            have hm' : m' ≠ m := by
              rcases hne with h | h | h
              · exact absurd rfl h
              · exact absurd rfl h
              · exact h
            rw [alookup_map_if _ m (fun o => layer_own_update o bsrpm pkg) m']
            rw [if_neg hm']
            by_cases hm : (alookup ms m).isSome
            · rw [if_pos hm]
            · rw [if_neg hm, alookup_append]
              cases hmm : alookup ms m' with
              | some w => rfl
              | none => simp [alookup, hm']
          · rw [if_neg hl]
        · rw [if_neg hs]

/-- C8 counterexample: `pkgB` is a single package required (at level 1)
by both `pkgC` and `pkgD` of workload `w1`; the stored `pkg_count` of the
(b-src, level 1, alice) triple is 2 — the number of
(requirer, package) pairs — while only one distinct package contributed. -/
theorem pkg_count_occurrences_counterexample :
    ∃ entries' lvls srpms',
      process_layer_zero_workload "wid" "w1" [c8C, c8D, c8B] c8rel
        (init_pkg_entries0 ["pkgC", "pkgD", "pkgB"]) = .ok (entries', lvls) ∧
      process_layer_zero_srpm_entries [("w1", c7conf)] entries'
        (init_srpm_entries0 ["c-src", "d-src", "b-src"]) = .ok srpms' ∧
      ((alookup srpms' "b-src").bind (fun own =>
        (alookup own 1).bind (fun ms => alookup ms "alice"))).map
          (fun o => (o.pkg_count, (o.pkg_names.map Prod.snd).dedup.length))
        = some (2, 1) := by
  refine ⟨_, _, _, rfl, rfl, by decide⟩

/-- C8 (amended): in layer 0 every maintainer record's `pkg_count` equals
the size of its duplicate-free set of (requirer, package) pairs — the
same package counts once per distinct requirer — and this is preserved by
the whole layer-0 roll-up; in layers k>0, each successful record step
increments the touched (source, level, maintainer) triple's `pkg_count`
by exactly one per contribution occurrence and leaves every other triple
unchanged. -/
theorem pkg_count_semantics :
    (∀ (confs : List (String × WorkloadConf))
      (entries : List (String × PkgEntry0))
      (srpms srpms1 : List (String × SrpmOwn0)),
      PairCountInv srpms →
      process_layer_zero_srpm_entries confs entries srpms = .ok srpms1 →
      PairCountInv srpms1) ∧
    (∀ (srpms : List (String × SrpmOwnK)) (source : String) (lvl : Nat)
      (m bsrpm pkg : String) (srpms1 : List (String × SrpmOwnK)),
      ((alookup srpms source).bind (fun own => alookup own lvl)).isSome →
      layer_srpm_add srpms source lvl m bsrpm pkg = .ok srpms1 →
      triple_count srpms1 source lvl m
        = triple_count srpms source lvl m + 1 ∧
      ∀ s' lvl' m', s' ≠ source ∨ lvl' ≠ lvl ∨ m' ≠ m →
        triple_count srpms1 s' lvl' m' = triple_count srpms s' lvl' m') :=
  ⟨fun confs entries srpms srpms1 hinv hrun =>
    process_layer_zero_srpm_entries_preserves confs entries srpms srpms1
      hinv hrun,
   fun srpms source lvl m bsrpm pkg srpms1 hlvl hrun =>
    layer_srpm_add_count srpms source lvl m bsrpm pkg srpms1 hlvl hrun⟩

/-- Witness for C8 (amended): the layer-0 invariant holds after a run
from an empty table, and one concrete layer-k record step takes the
touched triple's count from 0 to 1. -/
theorem pkg_count_semantics_witness :
    (∃ srpms1, process_layer_zero_srpm_entries [("w1", c7conf)] [] []
      = .ok srpms1 ∧ PairCountInv srpms1) ∧
    (∃ srpms1,
      layer_srpm_add
        [("b-src", (List.range 10).map
          (fun i => (i, ([] : List (String × LayerOwnEntry)))))]
        "b-src" 1 "alice" "x-src" "pkgB" = .ok srpms1 ∧
      triple_count srpms1 "b-src" 1 "alice" = 1) := by
  constructor
  · refine ⟨[], rfl, ?_⟩
    exact pkg_count_semantics.1 [("w1", c7conf)] [] [] []
      (fun p hp => absurd hp (List.not_mem_nil p)) rfl
  · refine ⟨_, rfl, ?_⟩
    have h := (pkg_count_semantics.2
      [("b-src", (List.range 10).map
        (fun i => (i, ([] : List (String × LayerOwnEntry)))))]
      "b-src" 1 "alice" "x-src" "pkgB" _ (by decide) rfl).1
    rw [h]
    decide
